import Mathlib

/-!
Verification of the houndigrade volume-inspection engine
(src/houndigrade/cli.py) via a shallow embedding in Lean 4.

The embedding models the partition discovery, mount lifecycle, heuristic
detectors and result aggregation of `cli.py`.  External processes
(`mount`, `blkid`, `rpm`, ...) and filesystem reads are modelled by
passing their observable outputs in as explicit inputs, exactly as the
source consumes them (glob result lists, file contents, subprocess
stdout/stderr).  Python `dict`s keyed by strings are modelled as
insertion-ordered association lists, matching CPython insertion-order
semantics.  Python exceptions that the source does not catch are
modelled with `Except`; exceptions the source catches are folded into
the corresponding result record just as the source does.
-/

/-! ## Python string helpers -/

/-- Python whitespace set used by `str.strip` / `str.rstrip`. -/
def isPyWs (c : Char) : Bool :=
  c = ' ' || c = '\t' || c = '\n' || c = '\r' || c = '\x0b' || c = '\x0c'

/-- Strip characters satisfying `p` from both ends of a char list. -/
def stripEnds (p : Char → Bool) (l : List Char) : List Char :=
  ((l.dropWhile p).reverse.dropWhile p).reverse

/-- Python `str.strip(chars)` restricted to a character predicate. -/
def pyStripChars (p : Char → Bool) (s : String) : String :=
  String.mk (stripEnds p s.data)

/-- Python `str.strip()` (whitespace on both ends). -/
def pyStrip (s : String) : String := pyStripChars isPyWs s

/-- Python `str.strip('"')`. -/
def pyStripQuotes (s : String) : String := pyStripChars (fun c => c = '"') s

/-- Python `str.rstrip()` (whitespace on the right end). -/
def pyRstrip (s : String) : String :=
  String.mk (s.data.reverse.dropWhile isPyWs).reverse

/-- Substring search on char lists: does `needle` occur inside `hay`? -/
def listContains : List Char → List Char → Bool
  | [], needle => needle.isEmpty
  | c :: rest, needle => needle.isPrefixOf (c :: rest) || listContains rest needle

/-- Python `needle in hay` substring test. -/
def strContains (hay needle : String) : Bool :=
  listContains hay.data needle.data

/-- Python `s.startswith(p)`. -/
def pyStartswith (s p : String) : Bool := p.data.isPrefixOf s.data

/-- Python `s[n:]` (drop the first `n` code points). -/
def pyDropChars (s : String) (n : Nat) : String := String.mk (s.data.drop n)

/-- Python `s.lower()` (ASCII lowering, as the source applies it to
ASCII repo names). -/
def pyLower (s : String) : String := String.mk (s.data.map Char.toLower)

/-- Split a char list at the first occurrence of the (nonempty)
separator, returning the pieces before and after it, or `none` when the
separator does not occur. -/
def splitOnceAux (sep : List Char) : List Char → Option (List Char × List Char)
  | [] => none
  | c :: rest =>
      if sep.isPrefixOf (c :: rest) then some ([], (c :: rest).drop sep.length)
      else (splitOnceAux sep rest).map (fun p => (c :: p.1, p.2))

/-- Python `s.split(sep, 1)` for a nonempty separator: split at the
first occurrence of `sep` only. -/
def pySplitOnce (sep : String) (s : String) : List String :=
  match splitOnceAux sep.data s.data with
  | none => [s]
  | some (l, r) => [String.mk l, String.mk r]

/-- Split a char list at every occurrence of the separator character
(Python `s.split(sep)` semantics: the empty input yields one empty
piece). -/
def splitOnChar (sep : Char) : List Char → List (List Char)
  | [] => [[]]
  | c :: rest =>
      let r := splitOnChar sep rest
      if c = sep then [] :: r else (c :: r.headD []) :: r.tail

/-- Python truthiness of an optional string (`None` and `""` are falsy). -/
def pyTruthyOptStr : Option String → Bool
  | none => false
  | some s => !s.data.isEmpty

/-- Parse a nonempty all-digit char list as a natural number. -/
def parseDigits (ds : List Char) : Option Nat :=
  if ds.isEmpty then none
  else if ds.all Char.isDigit then
    some (ds.foldl (fun a c => a * 10 + (c.toNat - 48)) 0)
  else none

/-- Python `int(s)` on an already-stripped string (ASCII digits with an
optional sign; returns `none` where Python raises `ValueError`). -/
def pyInt (s : String) : Option Int :=
  match s.data with
  | '-' :: ds => (parseDigits ds).map (fun n => -(n : Int))
  | '+' :: ds => (parseDigits ds).map (fun n => (n : Int))
  | ds => (parseDigits ds).map (fun n => (n : Int))

/-- Last path component, modelling
`os.path.basename(os.path.normpath(p))` for the slash-free-tail glob
results the source feeds it. -/
def pyBasename (p : String) : String :=
  String.mk ((splitOnChar '/' p.data).getLastD [])

/-! ## Insertion-ordered association lists (Python `dict` model) -/

/-- Lookup in an association list (first binding wins; `alSet` keeps
keys unique, like a Python `dict`). -/
def alGet {α : Type} (l : List (String × α)) (k : String) : Option α :=
  match l with
  | [] => none
  | (k', v) :: rest => if k' = k then some v else alGet rest k

/-- Update-or-append in an association list.  An existing key is
updated in place, a new key is appended at the end — CPython `dict`
insertion-order semantics. -/
def alSet {α : Type} (l : List (String × α)) (k : String) (v : α) :
    List (String × α) :=
  match l with
  | [] => [(k, v)]
  | (k', v') :: rest =>
      if k' = k then (k, v) :: rest else (k', v') :: alSet rest k v

/-- Nested two-level association-list update, modelling
`d[k1][k2] = v` where `d[k1]` is created as needed by the caller. -/
def alSet2 {α : Type} (l : List (String × List (String × α)))
    (k1 k2 : String) (v : α) : List (String × List (String × α)) :=
  alSet l k1 (alSet ((alGet l k1).getD []) k2 v)

/-! ## Constants from the top of cli.py -/

def INSPECT_PATH : String := "/mnt/inspect"

def RHEL_PEMS : List String := ["69.pem", "479.pem"]

def RHEL_REPOS : List String := ["rhel", "red hat"]

def SYSPURPOSE_FILESIZE_LIMIT : Nat := 1024

/-! ## Release-file detector (cli.py `check_file`, `check_release_files`) -/

/-- Outcome of opening and reading one file, as observed by
`check_file`: a successful read of text contents, a
`FileNotFoundError`, or another exception (e.g. `UnicodeDecodeError`)
that propagates out of `check_file`. -/
inductive ReadOutcome where
  | ok (contents : String)
  | notFound
  | err (msg : String)
deriving DecidableEq, Repr

/-- Model of `check_file` (cli.py:645-667): reads the file and flags it
when it contains the literal `"Red Hat"`; a `FileNotFoundError` yields
`(False, None)`; any other exception propagates to the caller. -/
def check_file : ReadOutcome → Except String (Bool × Option String)
  | .ok contents => .ok (strContains contents "Red Hat", some contents)
  | .notFound => .ok (false, none)
  | .err msg => .error msg

/-- One entry of the `release_files` evidence list built by
`check_release_files`. -/
structure ReleaseFileEvidence where
  rhel_release_file : String
  rhel_release_file_contents : Option String
  rhel_found : Bool
deriving DecidableEq, Repr

/-- Result dict written by `check_release_files`.  `release_files` is
`none` when the key was never set (no file processed successfully);
`status` is `none` when neither the no-files message nor the joined
exception messages were recorded. -/
structure ReleaseFilesResult where
  rhel_found : Bool
  release_files : Option (List ReleaseFileEvidence)
  status : Option String
deriving DecidableEq, Repr

/-- The path-relativisation of cli.py:459-460: strip the
`INSPECT_PATH` prefix when present. -/
def relPath (p : String) : String :=
  if pyStartswith p INSPECT_PATH then pyDropChars p INSPECT_PATH.length else p

/-- Python `sep.join(ss)`. -/
def joinWith (sep : String) (ss : List String) : String :=
  match ss with
  | [] => ""
  | s :: rest => rest.foldl (fun acc t => acc ++ sep ++ t) s

/-- Loop body state of `check_release_files`: accumulated found-flag,
evidence list and exception messages. -/
def releaseStep (partition : String)
    (acc : Bool × List ReleaseFileEvidence × List String)
    (f : String × ReadOutcome) :
    Bool × List ReleaseFileEvidence × List String :=
  match check_file f.2 with
  | .ok (rhel_found, contents) =>
      (rhel_found || acc.1,
       acc.2.1 ++ [⟨relPath f.1, contents, rhel_found⟩],
       acc.2.2)
  | .error e =>
      (acc.1, acc.2.1,
       acc.2.2 ++ ["Error reading release files on " ++ partition ++ ": " ++ e])

/-- Model of `check_release_files` (cli.py:429-474).  The input is the
`glob` result for `etc/*-release` paired with each file's read
outcome. -/
def check_release_files (partition : String)
    (files : List (String × ReadOutcome)) : ReleaseFilesResult :=
  if files.isEmpty then
    { rhel_found := false
      release_files := none
      status := some ("No release files found on " ++ partition) }
  else
    let acc := files.foldl (releaseStep partition) (false, [], [])
    { rhel_found := acc.1
      release_files := if acc.2.1.isEmpty then none else some acc.2.1
      status := if acc.2.2.isEmpty then none
                else some (joinWith "\n" acc.2.2) }

/-! ## Product-certificate detector (cli.py `check_for_rhel_certs`) -/

/-- Result dict written by `check_for_rhel_certs`. -/
structure CertsResult where
  rhel_found : Bool
  rhel_pem_files : List String
deriving DecidableEq, Repr

/-- Model of `check_for_rhel_certs` (cli.py:400-426).  The input is the
concatenated `glob` result over the two certificate directories; a pem
matches when its basename is in `RHEL_PEMS`. -/
def check_for_rhel_certs (pemPaths : List String) : CertsResult :=
  let matching := pemPaths.filter (fun pem => RHEL_PEMS.contains (pyBasename pem))
  { rhel_found := !matching.isEmpty, rhel_pem_files := matching }

/-! ## Enabled-repo detector (cli.py `check_repo_files`, `check_enabled_repos`) -/

/-- One section of a parsed repo config file, with the two options the
source reads (`configparser` lowercases option names). -/
structure RepoSection where
  repo : String
  name : Option String
  enabled : Option String
deriving DecidableEq, Repr

/-- A parsed repo config file: its sections, in file order. -/
abbrev RepoFile := List RepoSection

/-- The nested loop of `check_repo_files` (cli.py:874-884): for every
file, section and RHEL brand token, collect `(repo, name)` when the
lower-cased display name contains the token and `enabled == "1"`. -/
def collectRhelRepos (files : List RepoFile) : List (String × String) :=
  files.foldl (fun acc file =>
    file.foldl (fun acc sec =>
      RHEL_REPOS.foldl (fun acc token =>
        if strContains (pyLower (sec.name.getD "")) token
            && sec.enabled = some "1" then
          acc ++ [(sec.repo, sec.name.getD "")]
        else acc) acc) acc) []

/-- Model of `check_repo_files` (cli.py:862-891): collect RHEL-positive
repo entries across all files, then deduplicate structurally equal
entries (the source converts the dict list through a set of item
tuples). -/
def check_repo_files (files : List RepoFile) : List (String × String) :=
  (collectRhelRepos files).dedup

/-- Result dict written by `check_enabled_repos`. -/
structure ReposResult where
  rhel_found : Bool
  rhel_enabled_repos : Option (List (String × String))
deriving DecidableEq, Repr

/-- Model of `check_enabled_repos` (cli.py:894-922).  The input is the
list of parsed repo config files produced by `find_repos_via_config`;
when it is empty, or no RHEL repo is found, the detector reports
`found = false`. -/
def check_enabled_repos (repoFiles : List RepoFile) : ReposResult :=
  if repoFiles.isEmpty then
    { rhel_found := false, rhel_enabled_repos := none }
  else
    let rhel_repos := check_repo_files repoFiles
    if rhel_repos.isEmpty then
      { rhel_found := false, rhel_enabled_repos := none }
    else
      { rhel_found := true, rhel_enabled_repos := some rhel_repos }

/-! ## Signed-package detector (cli.py `check_for_signed_packages`) -/

/-- Result dict written by `check_for_signed_packages`, plus the
instrumentation flag `subprocessInvoked` recording whether control
reached the `subprocess.check_output` call. -/
structure PackagesResult where
  rhel_found : Bool
  rhel_signed_package_count : Int
  error : Option String
  status : Option String
  subprocessInvoked : Bool
deriving DecidableEq, Repr

/-- The early-exit message of cli.py:489-491. -/
def rpmDbEmptyMsg (partition imageId : String) : String :=
  "RPM DB directory on " ++ partition ++ " has no data for " ++ imageId

/-- Model of `check_for_signed_packages` (cli.py:477-533).  Inputs: the
`glob` result for `var/lib/rpm/*`, and the result of the shell pipeline
(`.error stderr` for a `CalledProcessError`, which the source catches;
`.ok stdout` otherwise).  A stdout that `int()` cannot parse raises an
uncaught `ValueError`, modelled as `Except.error`. -/
def check_for_signed_packages (partition imageId : String)
    (rpmDbGlob : List String) (rpmOutput : Except String String) :
    Except String PackagesResult :=
  if rpmDbGlob.isEmpty then
    .ok { rhel_found := false
          rhel_signed_package_count := 0
          error := none
          status := some (rpmDbEmptyMsg partition imageId)
          subprocessInvoked := false }
  else
    match rpmOutput with
    | .error stderr =>
        .ok { rhel_found := false
              rhel_signed_package_count := 0
              error := some stderr
              status := none
              subprocessInvoked := true }
    | .ok out =>
        match pyInt (pyStrip out) with
        | none => .error ("invalid literal for int with base 10: " ++ out)
        | some n =>
            .ok { rhel_found := n != 0
                  rhel_signed_package_count := n
                  error := none
                  status := none
                  subprocessInvoked := true }

/-! ## OS-version reader (cli.py `get_os_version`) -/

/-- The loop of cli.py:682-685 over the lines of `etc/os-release`
(lines are modelled without their trailing newline, which the
`strip()` call removes anyway): on the first line starting with
`VERSION_ID=` the remainder is stripped of whitespace and then of
double quotes, and returned iff nonempty. -/
def osVersionFromLines : List String → Option String
  | [] => none
  | line :: rest =>
      if pyStartswith line "VERSION_ID=" then
        let version := pyStripQuotes (pyStrip (pyDropChars line 11))
        if version.data.isEmpty then none else some version
      else osVersionFromLines rest

/-- Model of `get_os_version` (cli.py:670-690): `none` when
`etc/os-release` is absent, otherwise the `VERSION_ID` value if
present and nonempty. -/
def get_os_version (osRelease : Option (List String)) : Option String :=
  match osRelease with
  | none => none
  | some lines => osVersionFromLines lines

/-! ## System-purpose reader (cli.py `get_syspurpose`) -/

/-- Result of `get_syspurpose` plus the instrumentation flag
`readAttempted` recording whether the `open(...)`/read of the file's
contents was reached (the size check happens before the read). -/
structure SyspurposeRead where
  value : Option String
  readAttempted : Bool
deriving DecidableEq, Repr

/-- Model of `get_syspurpose` (cli.py:693-721).  The input is the
contents of `etc/rhsm/syspurpose/syspurpose.json` when the file exists
(`os.path.getsize` is the byte length of the contents).  Oversized
files are skipped before any read; empty contents yield `none`. -/
def get_syspurpose (file : Option String) : SyspurposeRead :=
  match file with
  | none => { value := none, readAttempted := false }
  | some contents =>
      if contents.utf8ByteSize > SYSPURPOSE_FILESIZE_LIMIT then
        { value := none, readAttempted := false }
      else
        { value := if contents.data.isEmpty then none else some contents
          readAttempted := true }

/-! ## JSON model (Python `json.loads` on syspurpose documents)

`json.loads` is Python standard-library code, external to this
repository.  It is modelled here on the document forms relevant to
`etc/rhsm/syspurpose/syspurpose.json`: the `null` literal and flat
objects with string keys and string values (string literals without
escape sequences).  Inputs outside this fragment make the parser return
`none`, which the source treats the same as a raised
`json.JSONDecodeError` (both end as "no syspurpose"). -/

/-- JSON values of the syspurpose fragment. -/
inductive Json where
  | null
  | obj (fields : List (String × String))
deriving DecidableEq, Repr

/-- Python truthiness of a parsed JSON value: `None` (from `null`) and
the empty dict are falsy, nonempty dicts are truthy. -/
def jsonTruthy : Json → Bool
  | .null => false
  | .obj fields => !fields.isEmpty

def lbrace : Char := Char.ofNat 123

def rbrace : Char := Char.ofNat 125

/-- JSON whitespace (RFC 8259: space, tab, newline, carriage return). -/
def isJsonWs (c : Char) : Bool :=
  c = ' ' || c = '\t' || c = '\n' || c = '\r'

/-- Skip leading JSON whitespace. -/
def skipWs : List Char → List Char
  | [] => []
  | c :: cs => if isJsonWs c then skipWs cs else c :: cs

/-- Scan the remainder of a string literal after the opening quote.
Stops at the closing quote; escape sequences are outside the modelled
fragment. -/
def scanStr : List Char → Option (List Char × List Char)
  | [] => none
  | c :: rest =>
      if c = '"' then some ([], rest)
      else if c = '\\' then none
      else (scanStr rest).map (fun p => (c :: p.1, p.2))

/-- Parse a string literal (opening quote, body, closing quote). -/
def parseStringLit (cs : List Char) : Option (String × List Char) :=
  match cs with
  | [] => none
  | c :: rest =>
      if c = '"' then (scanStr rest).map (fun p => (String.mk p.1, p.2))
      else none

/-- Parse one `"key": "value"` member, tolerating surrounding
whitespace. -/
def parsePair (cs : List Char) : Option ((String × String) × List Char) :=
  match parseStringLit (skipWs cs) with
  | none => none
  | some (k, cs) =>
      match skipWs cs with
      | [] => none
      | c :: cs =>
          if c = ':' then
            match parseStringLit (skipWs cs) with
            | none => none
            | some (v, cs) => some ((k, v), cs)
          else none

/-- Parse a nonempty comma-separated member list up to and including
the closing brace.  `fuel` bounds the number of members (each member
consumes at least one character, so any fuel of at least the input
length suffices). -/
def parseMembers : Nat → List Char → Option (List (String × String) × List Char)
  | 0, _ => none
  | fuel + 1, cs =>
      match parsePair cs with
      | none => none
      | some (kv, cs) =>
          match skipWs cs with
          | [] => none
          | c :: cs' =>
              if c = ',' then
                (parseMembers fuel cs').map (fun p => (kv :: p.1, p.2))
              else if c = rbrace then some ([kv], cs')
              else none

/-- Parse the body of an object document after the opening brace and
any following whitespace. -/
def parseObjBody : List Char → Option Json
  | [] => none
  | c :: rest =>
      if c = rbrace then
        if skipWs rest = [] then some (.obj []) else none
      else
        match parseMembers ((c :: rest).length + 1) (c :: rest) with
        | some (fields, rest') =>
            if skipWs rest' = [] then some (.obj fields) else none
        | none => none

/-- Parse a complete JSON document of the syspurpose fragment after
leading whitespace; the whole input must be consumed (modulo
whitespace). -/
def parseTopAfterWs : List Char → Option Json
  | [] => none
  | c :: rest =>
      if c = 'n' then
        if rest.take 3 = ['u', 'l', 'l'] ∧ skipWs (rest.drop 3) = [] then
          some .null
        else none
      else if c = lbrace then parseObjBody (skipWs rest)
      else none

/-- Parse a complete JSON document of the syspurpose fragment. -/
def parseJsonTop (cs : List Char) : Option Json :=
  parseTopAfterWs (skipWs cs)

/-- Model of Python `json.loads` on the syspurpose fragment. -/
def pyJsonLoads (s : String) : Option Json := parseJsonTop s.data

/-- Serialised form of one object member: `"key": "value"`. -/
def encodeField (kv : String × String) : List Char :=
  '"' :: kv.1.data ++ '"' :: ':' :: ' ' :: '"' :: kv.2.data ++ ['"']

/-- Serialised member list, `", "`-separated. -/
def encodeFields : List (String × String) → List Char
  | [] => []
  | [kv] => encodeField kv
  | kv :: rest => encodeField kv ++ ',' :: ' ' :: encodeFields rest

/-- Serialiser for the syspurpose JSON fragment (the form a writer such
as `syspurpose`/`subscription-manager` or `json.dumps` produces). -/
def encodeJson : Json → String
  | .null => "null"
  | .obj fields => String.mk (lbrace :: encodeFields fields ++ [rbrace])

/-- A string is clean when it contains neither a double quote nor a
backslash, so its serialised literal needs no escape sequences. -/
def cleanStr (s : String) : Bool :=
  s.data.all (fun c => c ≠ '"' && c ≠ '\\')

/-- A JSON value is clean when all its keys and values are clean. -/
def cleanJson : Json → Bool
  | .null => true
  | .obj fields => fields.all (fun kv => cleanStr kv.1 && cleanStr kv.2)

/-- Model of `parse_syspurpose` (cli.py:724-743): parse the contents
when they are nonempty and do not strip to the empty string; a parse
failure is caught and yields `none`. -/
def parse_syspurpose (syspurpose : String) : Option Json :=
  if !syspurpose.data.isEmpty && !(pyStrip syspurpose).data.isEmpty then
    pyJsonLoads syspurpose
  else none

/-! ## Mount session (cli.py `mount`, a `@contextmanager`)

`mount` (cli.py:317-359) is a generator-based context manager: the code
before `yield` runs on entry, the code after `yield` runs when
`__exit__` resumes the generator.  Per Python generator semantics, when
the `with`-body raises, `contextlib` re-raises the exception *at the
`yield` expression inside the generator*; since `mount` has no
`try`/`finally` around its `yield`, the post-`yield` statements (the
`INSPECT_PATH` restoration and the `sh.umount` call) execute only when
the body completes without raising.  The model records the observable
effects of one session. -/

structure MountSessionTrace where
  mountInvoked : Bool
  unmountInvoked : Bool
  finalInspectPath : String
  raised : Bool
deriving DecidableEq, Repr

/-- Model of one `with mount(partition, inspect_path)` session.
`ostreePath` is the result of `check_for_ostree` (the redirected
inspection root, when an ostree deployment is present);
`bodyRaises` says whether the body of the `with` block raised. -/
def mount (defaultPath : String) (ostreePath : Option String)
    (bodyRaises : Bool) : MountSessionTrace :=
  let current := match ostreePath with
    | some p => p
    | none => defaultPath
  if bodyRaises then
    { mountInvoked := true
      unmountInvoked := false
      finalInspectPath := current
      raised := true }
  else
    { mountInvoked := true
      unmountInvoked := true
      finalInspectPath := defaultPath
      raised := false }

/-! ## Partition enumeration (cli.py `get_partitions`) -/

/-- The line list `blkid_out.rstrip().split("\n")` of cli.py:566. -/
def blkidLines (blkidOut : String) : List String :=
  (splitOnChar '\n' (pyRstrip blkidOut).data).map String.mk

/-- Python `dict(pairs)` over the `split("=", 1)` results
(cli.py:567): an element that is not a two-element key/value pair
raises `ValueError`; later duplicate keys overwrite earlier ones. -/
def pyDictOfPairs : List (List String) → List (String × String) →
    Except String (List (String × String))
  | [], acc => .ok acc
  | [k, v] :: rest, acc => pyDictOfPairs rest (alSet acc k v)
  | _ :: _, _ =>
      .error "dictionary update sequence element has length 1; 2 is required"

/-- The attribute dictionary built from the blkid output. -/
def blkidDict (blkidOut : String) : Except String (List (String × String)) :=
  pyDictOfPairs ((blkidLines blkidOut).map (pySplitOnce "=")) []

/-- Insert a string into a sorted list (lexicographic order). -/
def insertSorted (x : String) : List String → List String
  | [] => [x]
  | y :: ys => if x ≤ y then x :: y :: ys else y :: insertSorted x ys

/-- Python `sorted` on a string list. -/
def pySorted (l : List String) : List String := l.foldr insertSorted []

/-- Model of `get_partitions` (cli.py:546-596).  Inputs: the raw
`blkid -p -o export` output and the two possible `glob` results
(`drive*[0-9]` for the partition-table branch, `drive*` for the
bare-device branches).  The LVM activation commands at the top only
have external side effects.  A `ValueError` from the `dict(...)` call
propagates out of the function uncaught. -/
def get_partitions (blkidOut : String)
    (globNumeric globAll : List String) : Except String (List String) :=
  match blkidDict blkidOut with
  | .error e => .error e
  | .ok d =>
      if pyTruthyOptStr (alGet d "PTTYPE") then
        .ok (pySorted globNumeric)
      else if strContains ((alGet d "USAGE").getD "") "filesystem" then
        .ok (pySorted globAll)
      else
        .ok (pySorted globAll)

/-! ## Per-partition inspection (cli.py `check_partition`) -/

instance {α β : Type} [DecidableEq α] [DecidableEq β] :
    DecidableEq (Except α β) := fun x y =>
  match x, y with
  | .error a, .error b =>
      if h : a = b then .isTrue (by rw [h])
      else .isFalse (fun hc => h (Except.error.inj hc))
  | .error _, .ok _ => .isFalse (fun hc => Except.noConfusion hc)
  | .ok _, .error _ => .isFalse (fun hc => Except.noConfusion hc)
  | .ok a, .ok b =>
      if h : a = b then .isTrue (by rw [h])
      else .isFalse (fun hc => h (Except.ok.inj hc))

/-- Everything one partition's inspection consumes from the outside
world, in the shape the source observes it:
* `mountError`: `some stderr` when `sh.mount` raises `ErrorReturnCode`;
* `releaseFiles`: the `etc/*-release` glob with per-file read outcomes;
* `pemPaths`: the glob over the two product-certificate directories;
* `repoFiles`: the parsed repo config files from `find_repos_via_config`;
* `rpmDbGlob`: the `var/lib/rpm/*` glob;
* `rpmOutput`: the rpm/grep/wc pipeline result;
* `osRelease`: the lines of `etc/os-release` when present;
* `syspurposeFile`: the contents of `syspurpose.json` when present. -/
structure PartitionInput where
  mountError : Option String
  releaseFiles : List (String × ReadOutcome)
  pemPaths : List String
  repoFiles : List RepoFile
  rpmDbGlob : List String
  rpmOutput : Except String String
  osRelease : Option (List String)
  syspurposeFile : Option String
deriving DecidableEq, Repr

/-- The per-partition facts sub-dict (cli.py:210-217, filled at
cli.py:221-230).  `none` models the facts dict still holding only the
four empty sub-dicts because the mount failed before any detector
ran. -/
structure PartitionFacts where
  rhel_release_files : ReleaseFilesResult
  rhel_product_certs : CertsResult
  rhel_signed_packages : PackagesResult
  rhel_enabled_repos : ReposResult
  os_version : Option String
  syspurpose_contents : Option String
deriving DecidableEq, Repr

/-- One partition's entry under `drives[drive]`. -/
structure PartitionResult where
  facts : Option PartitionFacts
  error : Option String
deriving DecidableEq, Repr

/-- The per-image aggregate dict created at cli.py:141-152. -/
structure ImageResult where
  rhel_found : Bool
  rhel_signed_packages_found : Bool
  rhel_product_certs_found : Bool
  rhel_release_files_found : Bool
  rhel_enabled_repos_found : Bool
  rhel_version : Option String
  syspurpose : Option Json
  drives : List (String × List (String × PartitionResult))
  errors : List String
deriving DecidableEq, Repr

/-- The fresh image entry of cli.py:142-152. -/
def freshImage : ImageResult :=
  { rhel_found := false
    rhel_signed_packages_found := false
    rhel_product_certs_found := false
    rhel_release_files_found := false
    rhel_enabled_repos_found := false
    rhel_version := none
    syspurpose := none
    drives := []
    errors := [] }

/-- The top-level results dict of cli.py:72. -/
structure RunResult where
  cloud : String
  images : List (String × ImageResult)
  errors : List String
deriving DecidableEq, Repr

/-- The mount-failure message of cli.py:281-294 (with the formatted
pieces concatenated). -/
def mountFailMsg (partition imageId stderr : String) : String :=
  "Mount of " ++ partition ++ " on image " ++ imageId ++
    " failed with error: " ++ stderr

/-- Recording of the partition facts into `drives[drive][partition]`
(cli.py:221-230, with the facts sub-dicts filled in place). -/
def recordFacts (drive partition : String) (inp : PartitionInput)
    (pkg : PackagesResult) (img : ImageResult) : ImageResult :=
  { img with
    drives := alSet2 img.drives drive partition
      ⟨some { rhel_release_files := check_release_files partition inp.releaseFiles
              rhel_product_certs := check_for_rhel_certs inp.pemPaths
              rhel_signed_packages := pkg
              rhel_enabled_repos := check_enabled_repos inp.repoFiles
              os_version := get_os_version inp.osRelease
              syspurpose_contents := (get_syspurpose inp.syspurposeFile).value },
       none⟩ }

/-- The version capture of cli.py:239-245: overwrite `rhel_version`
only when the release-file heuristic fired and the version is
non-empty. -/
def applyVersion (partition : String) (inp : PartitionInput)
    (img : ImageResult) : ImageResult :=
  if (check_release_files partition inp.releaseFiles).rhel_found
      && pyTruthyOptStr (get_os_version inp.osRelease) then
    { img with rhel_version := get_os_version inp.osRelease }
  else img

/-- The syspurpose capture of cli.py:247-252: overwrite `syspurpose`
only when RHEL was found on the partition, the raw contents are
truthy, and they parse to a truthy document. -/
def applySyspurpose (rhel_found : Bool) (inp : PartitionInput)
    (img : ImageResult) : ImageResult :=
  if rhel_found && pyTruthyOptStr (get_syspurpose inp.syspurposeFile).value then
    match parse_syspurpose ((get_syspurpose inp.syspurposeFile).value.getD "") with
    | some parsed =>
        if jsonTruthy parsed then { img with syspurpose := some parsed } else img
    | none => img
  else img

/-- The five OR-merges of cli.py:254-260. -/
def mergeFlags (relF certF repoF pkgF : Bool) (img : ImageResult) : ImageResult :=
  { img with
    rhel_found := img.rhel_found || (relF || certF || repoF || pkgF)
    rhel_signed_packages_found := img.rhel_signed_packages_found || pkgF
    rhel_product_certs_found := img.rhel_product_certs_found || certF
    rhel_release_files_found := img.rhel_release_files_found || relF
    rhel_enabled_repos_found := img.rhel_enabled_repos_found || repoF }

/-- The success path of `check_partition` after the `with mount(...)`
body ran all detectors (cli.py:221-260): record the facts, then apply
the version capture, the syspurpose capture and the five OR-merges, in
source order. -/
def applyPartitionOk (drive partition : String) (inp : PartitionInput)
    (pkg : PackagesResult) (img : ImageResult) : ImageResult :=
  let rel := check_release_files partition inp.releaseFiles
  let cert := check_for_rhel_certs inp.pemPaths
  let repo := check_enabled_repos inp.repoFiles
  let rhel_found :=
    rel.rhel_found || cert.rhel_found || repo.rhel_found || pkg.rhel_found
  mergeFlags rel.rhel_found cert.rhel_found repo.rhel_found pkg.rhel_found
    (applySyspurpose rhel_found inp
      (applyVersion partition inp
        (recordFacts drive partition inp pkg img)))

/-- Model of `check_partition` (cli.py:186-299), acting on the
caller's image entry and the run-level error list.  The empty partition
entry is recorded first (cli.py:218); a mount failure is caught and
recorded (cli.py:280-299); otherwise the detectors run in source
order, with an uncaught exception from the signed-package check
propagating (`Except.error`). -/
def check_partition (drive partition imageId : String)
    (inp : PartitionInput) (img : ImageResult) (runErrors : List String) :
    Except String (ImageResult × List String) :=
  let img1 := { img with
    drives := alSet2 img.drives drive partition ⟨none, none⟩ }
  match inp.mountError with
  | some stderr =>
      let message := mountFailMsg partition imageId stderr
      .ok ({ img1 with
              drives := alSet2 img1.drives drive partition ⟨none, some stderr⟩
              errors := img1.errors ++ [message] },
           runErrors ++ [message])
  | none =>
      match check_for_signed_packages partition imageId
          inp.rpmDbGlob inp.rpmOutput with
      | .error e => .error e
      | .ok pkg => .ok (applyPartitionOk drive partition inp pkg img1, runErrors)

/-! ## Per-target orchestration (cli.py `mount_and_inspect`, `main`) -/

/-- Everything one target's drive contributes: whether
`os.path.exists(drive)` holds, and the partition list (after
`get_partitions` and LVM resolution, cli.py:166-176) with each
partition's inspection inputs. -/
structure DriveInput where
  driveExists : Bool
  partitions : List (String × PartitionInput)
deriving DecidableEq, Repr

/-- The missing-device message of cli.py:160. -/
def nothingFoundMsg (drive imageId : String) : String :=
  "Nothing found at path " ++ drive ++ " for " ++ imageId

/-- The partition loop of cli.py:178-179. -/
def processPartitions (drive imageId : String)
    (parts : List (String × PartitionInput))
    (img : ImageResult) (runErrors : List String) :
    Except String (ImageResult × List String) :=
  parts.foldlM
    (fun st pp => check_partition drive pp.1 imageId pp.2 st.1 st.2)
    (img, runErrors)

/-- The image-entry creation of cli.py:141-152: insert a fresh image
entry when the image id is not yet present. -/
def ensureImage (imageId : String) (images : List (String × ImageResult)) :
    List (String × ImageResult) :=
  if (alGet images imageId).isNone then alSet images imageId freshImage
  else images

/-- The drive-entry creation of cli.py:156-157: insert an empty drive
entry when the drive is not yet present. -/
def ensureDrive (drive : String) (img : ImageResult) : ImageResult :=
  if (alGet img.drives drive).isNone then
    { img with drives := alSet img.drives drive [] }
  else img

/-- Model of `mount_and_inspect` (cli.py:127-184): create the image
entry when absent, ensure the drive entry, record the missing-device
error, or loop over the partitions. -/
def mount_and_inspect (drive imageId : String) (dinp : DriveInput)
    (r : RunResult) : Except String RunResult :=
  let images1 := ensureImage imageId r.images
  let img1 := ensureDrive drive ((alGet images1 imageId).getD freshImage)
  if !dinp.driveExists then
    let msg := nothingFoundMsg drive imageId
    .ok { r with
          images := alSet images1 imageId
            { img1 with errors := img1.errors ++ [msg] }
          errors := r.errors ++ [msg] }
  else
    match processPartitions drive imageId dinp.partitions img1 r.errors with
    | .error e => .error e
    | .ok (img', errs') =>
        .ok { r with images := alSet images1 imageId img', errors := errs' }

/-- The target loop of `main` (cli.py:74-75). -/
def processTargets (targets : List (String × String × DriveInput))
    (r : RunResult) : Except String RunResult :=
  targets.foldlM (fun r t => mount_and_inspect t.2.1 t.1 t.2.2 r) r

/-- Model of the inspection run driven by `main` (cli.py:58-83):
process every `(image_id, drive)` target against the fresh results
dict of cli.py:72. -/
def runModel (cloud : String)
    (targets : List (String × String × DriveInput)) :
    Except String RunResult :=
  processTargets targets { cloud := cloud, images := [], errors := [] }

/-! # Theorems -/

/-! ## Claim C3: mount-session close on body exception -/

/-- C3: the claim states that the mount session's close action (the
unmount, and restoration of the redirected inspection root) always runs
when the session exits, even if a detector raises inside the session
body.  The source's `mount` context manager has no `try`/`finally`
around its `yield`, so a raising body skips both the `sh.umount` call
and the `INSPECT_PATH` restoration; evaluated here at a session whose
ostree deployment redirected the inspection root and whose body
raised.  The non-raising session, in contrast, does unmount and
restore. -/
theorem mount_close_skipped_when_body_raises :
    (mount "/mnt/inspect" (some "/mnt/inspect/ostree/boot.0/deploy") true).unmountInvoked
      = false
    ∧ (mount "/mnt/inspect" (some "/mnt/inspect/ostree/boot.0/deploy") true).finalInspectPath
      = "/mnt/inspect/ostree/boot.0/deploy"
    ∧ (mount "/mnt/inspect" (some "/mnt/inspect/ostree/boot.0/deploy") false).unmountInvoked
      = true
    ∧ (mount "/mnt/inspect" (some "/mnt/inspect/ostree/boot.0/deploy") false).finalInspectPath
      = "/mnt/inspect" := by
  refine ⟨rfl, rfl, rfl, rfl⟩

/-! ## Claim C4: partition enumeration on garbled attribute output -/

/-- C4 counterexample: the claim states that enumeration never crashes
on garbled block-device attribute output, naming blkid lines lacking a
key=value shape, and instead returns the glob-by-drive-prefix list.
On an output whose first line has no `=`, the `dict(...)` call of
cli.py:567 raises `ValueError`: the model returns `Except.error`, not
the claimed partition list. -/
theorem get_partitions_crashes_on_eqless_line :
    get_partitions "GARBLED\nPTTYPE=gpt" ["/dev/xvda1"] ["/dev/xvda"]
      = .error "dictionary update sequence element has length 1; 2 is required"
    ∧ get_partitions "GARBLED\nPTTYPE=gpt" ["/dev/xvda1"] ["/dev/xvda"]
      ≠ .ok ["/dev/xvda"] := by
  refine ⟨by decide, by decide⟩

theorem splitOnceAux_isSome (sep : List Char) (hsep : sep.isEmpty = false) :
    ∀ hay, listContains hay sep = true → (splitOnceAux sep hay).isSome = true := by
  intro hay
  induction hay with
  | nil =>
      intro h
      simp only [listContains] at h
      rw [h] at hsep
      exact absurd hsep (by simp)
  | cons c rest ih =>
      intro h
      unfold splitOnceAux
      by_cases hp : sep.isPrefixOf (c :: rest)
      · simp [hp]
      · simp only [listContains, hp, Bool.false_or] at h
        obtain ⟨p, hps⟩ := Option.isSome_iff_exists.mp (ih h)
        simp [hp, hps]

theorem pySplitOnce_length_two_of_contains {line : String}
    (h : strContains line "=" = true) : (pySplitOnce "=" line).length = 2 := by
  have hs := splitOnceAux_isSome "=".data (by decide) line.data h
  unfold pySplitOnce
  obtain ⟨⟨l, r⟩, hp⟩ := Option.isSome_iff_exists.mp hs
  rw [hp]
  rfl

theorem pyDictOfPairs_isOk (ps : List (List String))
    (h : ∀ p ∈ ps, p.length = 2) :
    ∀ acc, ∃ d, pyDictOfPairs ps acc = .ok d := by
  induction ps with
  | nil => exact fun acc => ⟨acc, rfl⟩
  | cons p rest ih =>
      intro acc
      have hp : p.length = 2 := h p (by simp)
      have hrest : ∀ q ∈ rest, q.length = 2 := fun q hq => h q (by simp [hq])
      rcases p with _ | ⟨k, _ | ⟨v, _ | w⟩⟩ <;> simp at hp
      exact ih hrest (alSet acc k v)

theorem getD_empty_not_truthy {o : Option String} (h : o.getD "" = "") :
    pyTruthyOptStr o = false := by
  cases o with
  | none => rfl
  | some s =>
      simp only [Option.getD] at h
      subst h
      decide

/-- C4 amended: enumeration does not crash on unexpected or garbled
attribute output *provided every line still contains an `=`* (so the
key/value split succeeds); unrecognised attributes then fall through to
the assume-bare-device branch, returning the sorted
glob-by-drive-prefix partition list.  An output containing a line with
no `=` raises an uncaught `ValueError` (see the counterexample). -/
theorem get_partitions_tolerates_garbled_kv_lines :
    (∀ blkidOut globNumeric globAll,
      (∀ line ∈ blkidLines blkidOut, strContains line "=" = true) →
      (get_partitions blkidOut globNumeric globAll).isOk = true)
    ∧ (∀ blkidOut globNumeric globAll d,
      blkidDict blkidOut = .ok d →
      (alGet d "PTTYPE").getD "" = "" →
      strContains ((alGet d "USAGE").getD "") "filesystem" = false →
      get_partitions blkidOut globNumeric globAll = .ok (pySorted globAll)) := by
  constructor
  · intro blkidOut globNumeric globAll h
    have hlen : ∀ p ∈ (blkidLines blkidOut).map (pySplitOnce "="), p.length = 2 := by
      intro p hp
      rcases List.mem_map.mp hp with ⟨line, hline, rfl⟩
      exact pySplitOnce_length_two_of_contains (h line hline)
    obtain ⟨d, hd⟩ := pyDictOfPairs_isOk _ hlen []
    have hd' : blkidDict blkidOut = .ok d := hd
    unfold get_partitions
    rw [hd']
    by_cases h1 : pyTruthyOptStr (alGet d "PTTYPE") = true
    · simp [h1, Except.isOk, Except.toBool]
    · by_cases h2 : strContains ((alGet d "USAGE").getD "") "filesystem" = true <;>
        simp [h1, h2, Except.isOk, Except.toBool]
  · intro blkidOut globNumeric globAll d hd hpt hus
    unfold get_partitions
    rw [hd]
    simp [getD_empty_not_truthy hpt, hus]

/-- C4 amended witness: the "no idea what this device is" blkid output
from the source's own test suite contains only key=value lines, and
enumeration returns the sorted bare-device glob. -/
theorem get_partitions_tolerates_garbled_kv_lines_witness :
    (get_partitions
        "MINIMUM_IO_SIZE=512\nPHYSICAL_SECTOR_SIZE=512\nLOGICAL_SECTOR_SIZE=512"
        ["/dev/xvda1"] ["/dev/xvda"]).isOk = true
    ∧ get_partitions
        "MINIMUM_IO_SIZE=512\nPHYSICAL_SECTOR_SIZE=512\nLOGICAL_SECTOR_SIZE=512"
        ["/dev/xvda1"] ["/dev/xvda"] = .ok (pySorted ["/dev/xvda"]) := by
  refine ⟨get_partitions_tolerates_garbled_kv_lines.1 _ _ _ (by decide),
          get_partitions_tolerates_garbled_kv_lines.2 _ _ _
            [("MINIMUM_IO_SIZE", "512"), ("PHYSICAL_SECTOR_SIZE", "512"),
             ("LOGICAL_SECTOR_SIZE", "512")]
            (by decide) (by decide) (by decide)⟩

/-! ## Claim C5: signed-package detector on an empty package database -/

/-- C5: whenever the `var/lib/rpm` glob is empty (package database
directory absent or empty), the signed-package detector returns
`found = false`, a signed-package count of `0` and a non-empty status
message, and never reaches the `subprocess.check_output` call —
whatever the package-query pipeline would have produced. -/
theorem check_for_signed_packages_empty_db
    (partition imageId : String) (rpmOutput : Except String String) :
    check_for_signed_packages partition imageId [] rpmOutput =
      .ok { rhel_found := false
            rhel_signed_package_count := 0
            error := none
            status := some (rpmDbEmptyMsg partition imageId)
            subprocessInvoked := false }
    ∧ rpmDbEmptyMsg partition imageId ≠ "" := by
  refine ⟨rfl, fun hc => ?_⟩
  have hd := congrArg String.data hc
  simp [rpmDbEmptyMsg, String.data_append] at hd

/-! ## Claim C8: deduplication of enabled-repo entries -/

/-- C8: the repo entries reported by `check_repo_files` are exactly the
RHEL-positive `(repo id, display name)` pairs collected across all
config files, each appearing exactly once: the reported list has no
duplicates (structurally identical entries discovered via multiple
files collapse to a single entry), and an entry is reported iff it was
collected (so entries differing in repo id or name stay distinct). -/
theorem check_repo_files_dedups (files : List RepoFile) :
    (check_repo_files files).Nodup
    ∧ ∀ entry : String × String,
        entry ∈ check_repo_files files ↔ entry ∈ collectRhelRepos files := by
  unfold check_repo_files
  exact ⟨List.nodup_dedup _, fun entry => List.mem_dedup⟩

/-- C8 witness: the same RHEL repo declared in two config files is
reported (once, by the no-duplicates part), and a second repo differing
in id and name is reported separately. -/
theorem check_repo_files_dedups_witness :
    (check_repo_files
        [[⟨"rhel-8-appstream", some "RHEL 8 AppStream", some "1"⟩],
         [⟨"rhel-8-appstream", some "RHEL 8 AppStream", some "1"⟩,
          ⟨"rhel-8-baseos", some "RHEL 8 BaseOS", some "1"⟩]]).Nodup
    ∧ ("rhel-8-appstream", "RHEL 8 AppStream") ∈ check_repo_files
        [[⟨"rhel-8-appstream", some "RHEL 8 AppStream", some "1"⟩],
         [⟨"rhel-8-appstream", some "RHEL 8 AppStream", some "1"⟩,
          ⟨"rhel-8-baseos", some "RHEL 8 BaseOS", some "1"⟩]]
    ∧ ("rhel-8-baseos", "RHEL 8 BaseOS") ∈ check_repo_files
        [[⟨"rhel-8-appstream", some "RHEL 8 AppStream", some "1"⟩],
         [⟨"rhel-8-appstream", some "RHEL 8 AppStream", some "1"⟩,
          ⟨"rhel-8-baseos", some "RHEL 8 BaseOS", some "1"⟩]] := by
  refine ⟨(check_repo_files_dedups _).1,
          ((check_repo_files_dedups _).2 _).mpr (by decide),
          ((check_repo_files_dedups _).2 _).mpr (by decide)⟩

/-! ## Derived per-partition observables

Named projections of the detector results a partition's inputs
determine, used to state the aggregation claims. -/

/-- The release-file heuristic's verdict for one partition. -/
def relFoundOf (partition : String) (inp : PartitionInput) : Bool :=
  (check_release_files partition inp.releaseFiles).rhel_found

/-- The product-certificate heuristic's verdict for one partition. -/
def certFoundOf (inp : PartitionInput) : Bool :=
  (check_for_rhel_certs inp.pemPaths).rhel_found

/-- The enabled-repo heuristic's verdict for one partition. -/
def repoFoundOf (inp : PartitionInput) : Bool :=
  (check_enabled_repos inp.repoFiles).rhel_found

/-- The signed-package heuristic's verdict for one partition (`false`
when the check raised, in which case the run crashed anyway). -/
def pkgFoundOf (partition imageId : String) (inp : PartitionInput) : Bool :=
  match check_for_signed_packages partition imageId inp.rpmDbGlob inp.rpmOutput with
  | .ok pkg => pkg.rhel_found
  | .error _ => false

/-- The `rhel_found` verdict computed for one partition at
cli.py:232-237: the partition mounted and at least one of the four
heuristics fired. -/
def partitionRhelFound (imageId partition : String) (inp : PartitionInput) : Bool :=
  inp.mountError.isNone &&
    (relFoundOf partition inp || certFoundOf inp || repoFoundOf inp
      || pkgFoundOf partition imageId inp)

/-- The OS version read for one partition. -/
def osvOf (inp : PartitionInput) : Option String := get_os_version inp.osRelease

/-- Whether one partition overwrites the image's `rhel_version`
(cli.py:239-245): the partition mounted, its release-file heuristic
fired, and the version is non-empty. -/
def versionSetOf (partition : String) (inp : PartitionInput) : Bool :=
  inp.mountError.isNone && relFoundOf partition inp && pyTruthyOptStr (osvOf inp)

/-- The parsed syspurpose document of one partition, when its contents
were read and parsed. -/
def spParsedOf (inp : PartitionInput) : Option Json :=
  match (get_syspurpose inp.syspurposeFile).value with
  | some s => parse_syspurpose s
  | none => none

/-- Whether one partition overwrites the image's `syspurpose`
(cli.py:247-252): RHEL was found on the partition, the raw contents are
non-empty, and they parsed to a truthy document. -/
def spSetOf (imageId partition : String) (inp : PartitionInput) : Bool :=
  partitionRhelFound imageId partition inp
    && pyTruthyOptStr (get_syspurpose inp.syspurposeFile).value
    && (match spParsedOf inp with
        | some j => jsonTruthy j
        | none => false)

/-! ## Characterisation of one `check_partition` step -/

theorem recordFacts_proj (drive partition : String) (inp : PartitionInput)
    (pkg : PackagesResult) (img : ImageResult) :
    (recordFacts drive partition inp pkg img).rhel_found = img.rhel_found
    ∧ (recordFacts drive partition inp pkg img).rhel_release_files_found
        = img.rhel_release_files_found
    ∧ (recordFacts drive partition inp pkg img).rhel_product_certs_found
        = img.rhel_product_certs_found
    ∧ (recordFacts drive partition inp pkg img).rhel_enabled_repos_found
        = img.rhel_enabled_repos_found
    ∧ (recordFacts drive partition inp pkg img).rhel_signed_packages_found
        = img.rhel_signed_packages_found
    ∧ (recordFacts drive partition inp pkg img).rhel_version = img.rhel_version
    ∧ (recordFacts drive partition inp pkg img).syspurpose = img.syspurpose
    ∧ (recordFacts drive partition inp pkg img).errors = img.errors := by
  exact ⟨rfl, rfl, rfl, rfl, rfl, rfl, rfl, rfl⟩

theorem applyVersion_proj (partition : String) (inp : PartitionInput)
    (img : ImageResult) :
    (applyVersion partition inp img).rhel_found = img.rhel_found
    ∧ (applyVersion partition inp img).rhel_release_files_found
        = img.rhel_release_files_found
    ∧ (applyVersion partition inp img).rhel_product_certs_found
        = img.rhel_product_certs_found
    ∧ (applyVersion partition inp img).rhel_enabled_repos_found
        = img.rhel_enabled_repos_found
    ∧ (applyVersion partition inp img).rhel_signed_packages_found
        = img.rhel_signed_packages_found
    ∧ (applyVersion partition inp img).syspurpose = img.syspurpose
    ∧ (applyVersion partition inp img).errors = img.errors := by
  unfold applyVersion
  split <;> exact ⟨rfl, rfl, rfl, rfl, rfl, rfl, rfl⟩

theorem applyVersion_version (partition : String) (inp : PartitionInput)
    (img : ImageResult) (hm : inp.mountError = none) :
    (applyVersion partition inp img).rhel_version
      = if versionSetOf partition inp then osvOf inp else img.rhel_version := by
  unfold applyVersion versionSetOf relFoundOf osvOf
  simp only [hm, Option.isNone_none, Bool.true_and]
  split <;> rfl

theorem applySyspurpose_proj (found : Bool) (inp : PartitionInput)
    (img : ImageResult) :
    (applySyspurpose found inp img).rhel_found = img.rhel_found
    ∧ (applySyspurpose found inp img).rhel_release_files_found
        = img.rhel_release_files_found
    ∧ (applySyspurpose found inp img).rhel_product_certs_found
        = img.rhel_product_certs_found
    ∧ (applySyspurpose found inp img).rhel_enabled_repos_found
        = img.rhel_enabled_repos_found
    ∧ (applySyspurpose found inp img).rhel_signed_packages_found
        = img.rhel_signed_packages_found
    ∧ (applySyspurpose found inp img).rhel_version = img.rhel_version
    ∧ (applySyspurpose found inp img).errors = img.errors := by
  unfold applySyspurpose
  repeat' split
  all_goals exact ⟨rfl, rfl, rfl, rfl, rfl, rfl, rfl⟩

theorem mergeFlags_proj (relF certF repoF pkgF : Bool) (img : ImageResult) :
    (mergeFlags relF certF repoF pkgF img).rhel_found
      = (img.rhel_found || (relF || certF || repoF || pkgF))
    ∧ (mergeFlags relF certF repoF pkgF img).rhel_release_files_found
        = (img.rhel_release_files_found || relF)
    ∧ (mergeFlags relF certF repoF pkgF img).rhel_product_certs_found
        = (img.rhel_product_certs_found || certF)
    ∧ (mergeFlags relF certF repoF pkgF img).rhel_enabled_repos_found
        = (img.rhel_enabled_repos_found || repoF)
    ∧ (mergeFlags relF certF repoF pkgF img).rhel_signed_packages_found
        = (img.rhel_signed_packages_found || pkgF)
    ∧ (mergeFlags relF certF repoF pkgF img).rhel_version = img.rhel_version
    ∧ (mergeFlags relF certF repoF pkgF img).syspurpose = img.syspurpose
    ∧ (mergeFlags relF certF repoF pkgF img).errors = img.errors := by
  exact ⟨rfl, rfl, rfl, rfl, rfl, rfl, rfl, rfl⟩

theorem applyPartitionOk_flags (drive partition : String)
    (inp : PartitionInput) (pkg : PackagesResult) (img : ImageResult) :
    (applyPartitionOk drive partition inp pkg img).rhel_found
      = (img.rhel_found ||
          (relFoundOf partition inp || certFoundOf inp || repoFoundOf inp
            || pkg.rhel_found))
    ∧ (applyPartitionOk drive partition inp pkg img).rhel_release_files_found
      = (img.rhel_release_files_found || relFoundOf partition inp)
    ∧ (applyPartitionOk drive partition inp pkg img).rhel_product_certs_found
      = (img.rhel_product_certs_found || certFoundOf inp)
    ∧ (applyPartitionOk drive partition inp pkg img).rhel_enabled_repos_found
      = (img.rhel_enabled_repos_found || repoFoundOf inp)
    ∧ (applyPartitionOk drive partition inp pkg img).rhel_signed_packages_found
      = (img.rhel_signed_packages_found || pkg.rhel_found) := by
  unfold applyPartitionOk relFoundOf certFoundOf repoFoundOf
  simp [mergeFlags_proj, applySyspurpose_proj, applyVersion_proj,
        recordFacts_proj, Bool.or_assoc]

theorem applyPartitionOk_errors (drive partition : String)
    (inp : PartitionInput) (pkg : PackagesResult) (img : ImageResult) :
    (applyPartitionOk drive partition inp pkg img).errors = img.errors := by
  unfold applyPartitionOk
  rw [(mergeFlags_proj _ _ _ _ _).2.2.2.2.2.2.2,
      (applySyspurpose_proj _ _ _).2.2.2.2.2.2,
      (applyVersion_proj _ _ _).2.2.2.2.2.2,
      (recordFacts_proj _ _ _ _ _).2.2.2.2.2.2.2]

theorem applyPartitionOk_rhel_version (drive partition : String)
    (inp : PartitionInput) (pkg : PackagesResult) (img : ImageResult)
    (hm : inp.mountError = none) :
    (applyPartitionOk drive partition inp pkg img).rhel_version
      = if versionSetOf partition inp then osvOf inp else img.rhel_version := by
  unfold applyPartitionOk
  rw [(mergeFlags_proj _ _ _ _ _).2.2.2.2.2.1,
      (applySyspurpose_proj _ _ _).2.2.2.2.2.1,
      applyVersion_version _ _ _ hm,
      (recordFacts_proj _ _ _ _ _).2.2.2.2.2.1]

theorem applySyspurpose_syspurpose (found : Bool) (inp : PartitionInput)
    (img : ImageResult) :
    (applySyspurpose found inp img).syspurpose
      = if found && pyTruthyOptStr (get_syspurpose inp.syspurposeFile).value then
          (match parse_syspurpose ((get_syspurpose inp.syspurposeFile).value.getD "") with
           | some parsed =>
               if jsonTruthy parsed then some parsed else img.syspurpose
           | none => img.syspurpose)
        else img.syspurpose := by
  unfold applySyspurpose
  repeat' split
  all_goals simp_all

theorem applyPartitionOk_syspurpose (drive partition imageId : String)
    (inp : PartitionInput) (pkg : PackagesResult) (img : ImageResult)
    (hm : inp.mountError = none)
    (hpkg : check_for_signed_packages partition imageId
              inp.rpmDbGlob inp.rpmOutput = .ok pkg) :
    (applyPartitionOk drive partition inp pkg img).syspurpose
      = if spSetOf imageId partition inp then spParsedOf inp
        else img.syspurpose := by
  unfold applyPartitionOk
  rw [(mergeFlags_proj _ _ _ _ _).2.2.2.2.2.2.1,
      applySyspurpose_syspurpose,
      (applyVersion_proj _ _ _).2.2.2.2.2.1,
      (recordFacts_proj _ _ _ _ _).2.2.2.2.2.2.1]
  unfold spSetOf spParsedOf partitionRhelFound
    relFoundOf certFoundOf repoFoundOf pkgFoundOf
  rw [hm, hpkg]
  simp only [Option.isNone_none, Bool.true_and]
  cases hv : (get_syspurpose inp.syspurposeFile).value with
  | none => simp [pyTruthyOptStr]
  | some s =>
      simp only [Option.getD]
      cases hp : parse_syspurpose s with
      | none => simp [hp]
      | some parsed =>
          by_cases hf : ((check_release_files partition inp.releaseFiles).rhel_found
              || (check_for_rhel_certs inp.pemPaths).rhel_found
              || (check_enabled_repos inp.repoFiles).rhel_found
              || pkg.rhel_found) = true <;>
            by_cases hs2 : (!s.data.isEmpty) = true <;>
            by_cases ht : jsonTruthy parsed = true <;>
            simp_all [pyTruthyOptStr]

theorem check_partition_elim {drive partition imageId : String}
    {inp : PartitionInput} {img : ImageResult} {errs : List String}
    {img' : ImageResult} {errs' : List String}
    (h : check_partition drive partition imageId inp img errs = .ok (img', errs')) :
    (∃ stderr, inp.mountError = some stderr ∧
      img'.rhel_found = img.rhel_found
      ∧ img'.rhel_release_files_found = img.rhel_release_files_found
      ∧ img'.rhel_product_certs_found = img.rhel_product_certs_found
      ∧ img'.rhel_enabled_repos_found = img.rhel_enabled_repos_found
      ∧ img'.rhel_signed_packages_found = img.rhel_signed_packages_found
      ∧ img'.rhel_version = img.rhel_version
      ∧ img'.syspurpose = img.syspurpose
      ∧ img'.errors = img.errors ++ [mountFailMsg partition imageId stderr]
      ∧ errs' = errs ++ [mountFailMsg partition imageId stderr])
    ∨ (∃ pkg, inp.mountError = none ∧
      check_for_signed_packages partition imageId inp.rpmDbGlob inp.rpmOutput
        = .ok pkg
      ∧ img' = applyPartitionOk drive partition inp pkg
          { img with drives := alSet2 img.drives drive partition ⟨none, none⟩ }
      ∧ errs' = errs) := by
  unfold check_partition at h
  cases hm : inp.mountError with
  | some stderr =>
      rw [hm] at h
      simp only [Except.ok.injEq, Prod.mk.injEq] at h
      obtain ⟨h1, h2⟩ := h
      subst h1; subst h2
      exact Or.inl ⟨stderr, rfl, rfl, rfl, rfl, rfl, rfl, rfl, rfl, rfl, rfl⟩
  | none =>
      rw [hm] at h
      cases hpkg : check_for_signed_packages partition imageId
          inp.rpmDbGlob inp.rpmOutput with
      | error e => rw [hpkg] at h; simp at h
      | ok pkg =>
          rw [hpkg] at h
          simp only [Except.ok.injEq, Prod.mk.injEq] at h
          obtain ⟨h1, h2⟩ := h
          exact Or.inr ⟨pkg, rfl, rfl, h1.symm, h2.symm⟩

theorem processPartitions_nil (drive imageId : String)
    (img : ImageResult) (errs : List String) :
    processPartitions drive imageId [] img errs = .ok (img, errs) := rfl

theorem processPartitions_cons (drive imageId : String)
    (pp : String × PartitionInput) (parts : List (String × PartitionInput))
    (img : ImageResult) (errs : List String) :
    processPartitions drive imageId (pp :: parts) img errs
      = match check_partition drive pp.1 imageId pp.2 img errs with
        | .error e => .error e
        | .ok st => processPartitions drive imageId parts st.1 st.2 := by
  unfold processPartitions
  rw [List.foldlM_cons]
  cases check_partition drive pp.1 imageId pp.2 img errs with
  | error e => rfl
  | ok st => rfl

/-! ## Flag algebra -/

/-- Pointwise implication order on the five boolean flags: every flag
set in `a` is still set in `b`. -/
def flagsLe (a b : ImageResult) : Bool :=
  (!a.rhel_found || b.rhel_found)
    && (!a.rhel_signed_packages_found || b.rhel_signed_packages_found)
    && (!a.rhel_product_certs_found || b.rhel_product_certs_found)
    && (!a.rhel_release_files_found || b.rhel_release_files_found)
    && (!a.rhel_enabled_repos_found || b.rhel_enabled_repos_found)

theorem flagsLe_refl (a : ImageResult) : flagsLe a a = true := by
  unfold flagsLe
  cases a.rhel_found <;> cases a.rhel_signed_packages_found <;>
    cases a.rhel_product_certs_found <;> cases a.rhel_release_files_found <;>
    cases a.rhel_enabled_repos_found <;> rfl

theorem bimp_trans {a b c : Bool} (h1 : (!a || b) = true)
    (h2 : (!b || c) = true) : (!a || c) = true := by
  cases a <;> cases b <;> cases c <;> simp_all

theorem flagsLe_trans {a b c : ImageResult} (h1 : flagsLe a b = true)
    (h2 : flagsLe b c = true) : flagsLe a c = true := by
  unfold flagsLe at h1 h2 ⊢
  simp only [Bool.and_eq_true] at h1 h2 ⊢
  exact ⟨⟨⟨⟨bimp_trans h1.1.1.1.1 h2.1.1.1.1,
            bimp_trans h1.1.1.1.2 h2.1.1.1.2⟩,
           bimp_trans h1.1.1.2 h2.1.1.2⟩,
          bimp_trans h1.1.2 h2.1.2⟩,
         bimp_trans h1.2 h2.2⟩

theorem bool_le_or (a x : Bool) : (!a || (a || x)) = true := by
  cases a <;> simp

theorem check_partition_flagsLe {drive partition imageId : String}
    {inp : PartitionInput} {img : ImageResult} {errs : List String}
    {img' : ImageResult} {errs' : List String}
    (h : check_partition drive partition imageId inp img errs = .ok (img', errs')) :
    flagsLe img img' = true := by
  rcases check_partition_elim h with
    ⟨stderr, hm, h1, h2, h3, h4, h5, _⟩ | ⟨pkg, hm, hpkg, h1, h2⟩
  · unfold flagsLe
    rw [h1, h2, h3, h4, h5]
    exact flagsLe_refl img
  · subst h1
    have hf := applyPartitionOk_flags drive partition inp pkg
      { img with drives := alSet2 img.drives drive partition ⟨none, none⟩ }
    unfold flagsLe
    rw [hf.1, hf.2.1, hf.2.2.1, hf.2.2.2.1, hf.2.2.2.2]
    simp [bool_le_or]

theorem processPartitions_flagsLe {drive imageId : String} :
    ∀ (parts : List (String × PartitionInput)) (img : ImageResult)
      (errs : List String) (img' : ImageResult) (errs' : List String),
      processPartitions drive imageId parts img errs = .ok (img', errs') →
      flagsLe img img' = true := by
  intro parts
  induction parts with
  | nil =>
      intro img errs img' errs' h
      rw [processPartitions_nil] at h
      simp only [Except.ok.injEq, Prod.mk.injEq] at h
      rw [← h.1]
      exact flagsLe_refl img
  | cons pp rest ih =>
      intro img errs img' errs' h
      rw [processPartitions_cons] at h
      cases hcp : check_partition drive pp.1 imageId pp.2 img errs with
      | error e => rw [hcp] at h; simp at h
      | ok st =>
          rw [hcp] at h
          exact flagsLe_trans (check_partition_flagsLe hcp)
            (ih st.1 st.2 img' errs' h)

/-- The OR-identity invariant of one image entry: `rhel_found` is the
disjunction of the four per-heuristic flags. -/
def flagsConsistent (img : ImageResult) : Prop :=
  img.rhel_found
    = (img.rhel_release_files_found || img.rhel_product_certs_found
        || img.rhel_enabled_repos_found || img.rhel_signed_packages_found)

theorem bool_or_merge (a0 b0 c0 d0 a b c d : Bool) :
    ((a0 || b0 || c0 || d0) || (a || b || c || d))
      = ((a0 || a) || (b0 || b) || (c0 || c) || (d0 || d)) := by
  cases a0 <;> cases b0 <;> cases c0 <;> cases d0 <;>
    cases a <;> cases b <;> cases c <;> cases d <;> rfl

theorem check_partition_flagsConsistent {drive partition imageId : String}
    {inp : PartitionInput} {img : ImageResult} {errs : List String}
    {img' : ImageResult} {errs' : List String}
    (hc : flagsConsistent img)
    (h : check_partition drive partition imageId inp img errs = .ok (img', errs')) :
    flagsConsistent img' := by
  rcases check_partition_elim h with
    ⟨stderr, hm, h1, h2, h3, h4, h5, _⟩ | ⟨pkg, hm, hpkg, h1, h2⟩
  · unfold flagsConsistent at hc ⊢
    rw [h1, h2, h3, h4, h5, hc]
  · subst h1
    have hf := applyPartitionOk_flags drive partition inp pkg
      { img with drives := alSet2 img.drives drive partition ⟨none, none⟩ }
    unfold flagsConsistent at hc ⊢
    rw [hf.1, hf.2.1, hf.2.2.1, hf.2.2.2.1, hf.2.2.2.2]
    show (img.rhel_found || _) = _
    rw [hc]
    exact bool_or_merge _ _ _ _ _ _ _ _

theorem processPartitions_flagsConsistent {drive imageId : String} :
    ∀ (parts : List (String × PartitionInput)) (img : ImageResult)
      (errs : List String) (img' : ImageResult) (errs' : List String),
      flagsConsistent img →
      processPartitions drive imageId parts img errs = .ok (img', errs') →
      flagsConsistent img' := by
  intro parts
  induction parts with
  | nil =>
      intro img errs img' errs' hc h
      rw [processPartitions_nil] at h
      simp only [Except.ok.injEq, Prod.mk.injEq] at h
      rw [← h.1]
      exact hc
  | cons pp rest ih =>
      intro img errs img' errs' hc h
      rw [processPartitions_cons] at h
      cases hcp : check_partition drive pp.1 imageId pp.2 img errs with
      | error e => rw [hcp] at h; simp at h
      | ok st =>
          rw [hcp] at h
          exact ih st.1 st.2 img' errs'
            (check_partition_flagsConsistent hc hcp) h

theorem check_partition_rhel_found {drive partition imageId : String}
    {inp : PartitionInput} {img : ImageResult} {errs : List String}
    {img' : ImageResult} {errs' : List String}
    (h : check_partition drive partition imageId inp img errs = .ok (img', errs')) :
    img'.rhel_found = (img.rhel_found || partitionRhelFound imageId partition inp) := by
  rcases check_partition_elim h with
    ⟨stderr, hm, h1, _⟩ | ⟨pkg, hm, hpkg, h1, h2⟩
  · rw [h1]
    unfold partitionRhelFound
    rw [hm]
    simp
  · subst h1
    have hf := applyPartitionOk_flags drive partition inp pkg
      { img with drives := alSet2 img.drives drive partition ⟨none, none⟩ }
    rw [hf.1]
    unfold partitionRhelFound pkgFoundOf
    rw [hm, hpkg]
    simp

theorem processPartitions_rhel_found {drive imageId : String} :
    ∀ (parts : List (String × PartitionInput)) (img : ImageResult)
      (errs : List String) (img' : ImageResult) (errs' : List String),
      processPartitions drive imageId parts img errs = .ok (img', errs') →
      img'.rhel_found
        = (img.rhel_found
            || parts.any (fun pp => partitionRhelFound imageId pp.1 pp.2)) := by
  intro parts
  induction parts with
  | nil =>
      intro img errs img' errs' h
      rw [processPartitions_nil] at h
      simp only [Except.ok.injEq, Prod.mk.injEq] at h
      rw [← h.1]
      simp
  | cons pp rest ih =>
      intro img errs img' errs' h
      rw [processPartitions_cons] at h
      cases hcp : check_partition drive pp.1 imageId pp.2 img errs with
      | error e => rw [hcp] at h; simp at h
      | ok st =>
          rw [hcp] at h
          rw [ih st.1 st.2 img' errs' h, check_partition_rhel_found hcp,
              List.any_cons, Bool.or_assoc]

/-! ## Spec-side last-write-wins folds (for the C2 amendment) -/

/-- The value `rhel_version` holds after a sequence of partitions: the
`os_version` of the last partition that mounted, whose release-file
heuristic fired and whose version was non-empty; the initial value if
none did. -/
def specLastVersion (parts : List (String × PartitionInput))
    (init : Option String) : Option String :=
  parts.foldl
    (fun acc pp => if versionSetOf pp.1 pp.2 then osvOf pp.2 else acc) init

/-- The value `syspurpose` holds after a sequence of partitions: the
parsed document of the last partition that mounted, detected RHEL and
carried a truthy parsed syspurpose; the initial value if none did. -/
def specLastSyspurpose (imageId : String)
    (parts : List (String × PartitionInput)) (init : Option Json) : Option Json :=
  parts.foldl
    (fun acc pp => if spSetOf imageId pp.1 pp.2 then spParsedOf pp.2 else acc) init

theorem check_partition_version_syspurpose {drive partition imageId : String}
    {inp : PartitionInput} {img : ImageResult} {errs : List String}
    {img' : ImageResult} {errs' : List String}
    (h : check_partition drive partition imageId inp img errs = .ok (img', errs')) :
    img'.rhel_version
      = (if versionSetOf partition inp then osvOf inp else img.rhel_version)
    ∧ img'.syspurpose
      = (if spSetOf imageId partition inp then spParsedOf inp
         else img.syspurpose) := by
  rcases check_partition_elim h with
    ⟨stderr, hm, _, _, _, _, _, hv, hs, _⟩ | ⟨pkg, hm, hpkg, h1, h2⟩
  · constructor
    · rw [hv]
      unfold versionSetOf
      rw [hm]
      simp
    · rw [hs]
      unfold spSetOf partitionRhelFound
      rw [hm]
      simp
  · subst h1
    constructor
    · rw [applyPartitionOk_rhel_version _ _ _ _ _ hm]
    · rw [applyPartitionOk_syspurpose _ _ imageId _ _ _ hm hpkg]

theorem processPartitions_version_syspurpose {drive imageId : String} :
    ∀ (parts : List (String × PartitionInput)) (img : ImageResult)
      (errs : List String) (img' : ImageResult) (errs' : List String),
      processPartitions drive imageId parts img errs = .ok (img', errs') →
      img'.rhel_version = specLastVersion parts img.rhel_version
      ∧ img'.syspurpose = specLastSyspurpose imageId parts img.syspurpose := by
  intro parts
  induction parts with
  | nil =>
      intro img errs img' errs' h
      rw [processPartitions_nil] at h
      simp only [Except.ok.injEq, Prod.mk.injEq] at h
      rw [← h.1]
      exact ⟨rfl, rfl⟩
  | cons pp rest ih =>
      intro img errs img' errs' h
      rw [processPartitions_cons] at h
      cases hcp : check_partition drive pp.1 imageId pp.2 img errs with
      | error e => rw [hcp] at h; simp at h
      | ok st =>
          rw [hcp] at h
          have hstep := check_partition_version_syspurpose hcp
          have hih := ih st.1 st.2 img' errs' h
          constructor
          · rw [hih.1]
            unfold specLastVersion
            rw [List.foldl_cons, ← hstep.1]
          · rw [hih.2]
            unfold specLastSyspurpose
            rw [List.foldl_cons, ← hstep.2]

/-! ## Association-list lemmas -/

theorem alGet_alSet_self {α : Type} (l : List (String × α)) (k : String) (v : α) :
    alGet (alSet l k v) k = some v := by
  induction l with
  | nil => simp [alSet, alGet]
  | cons p rest ih =>
      obtain ⟨k', v'⟩ := p
      by_cases h : k' = k <;> simp [alSet, alGet, h, ih]

theorem alGet_alSet_ne {α : Type} (l : List (String × α)) (k k' : String)
    (v : α) (h : k' ≠ k) : alGet (alSet l k v) k' = alGet l k' := by
  induction l with
  | nil =>
      simp only [alSet, alGet]
      rw [if_neg (Ne.symm h)]
  | cons p rest ih =>
      obtain ⟨k0, v0⟩ := p
      by_cases h0 : k0 = k
      · subst h0
        simp only [alSet, if_pos rfl, alGet]
        rw [if_neg (fun hc => h hc.symm), if_neg (fun hc => h hc.symm)]
      · simp only [alSet, if_neg h0, alGet]
        by_cases h1 : k0 = k'
        · rw [if_pos h1, if_pos h1]
        · rw [if_neg h1, if_neg h1]
          exact ih

theorem mem_alSet {α : Type} {l : List (String × α)} {k : String} {v : α}
    {e : String × α} (h : e ∈ alSet l k v) : e = (k, v) ∨ e ∈ l := by
  induction l with
  | nil => simpa [alSet] using h
  | cons p rest ih =>
      obtain ⟨k0, v0⟩ := p
      by_cases h0 : k0 = k
      · subst h0
        simp only [alSet, if_pos rfl] at h
        rcases List.mem_cons.mp h with h1 | h1
        · exact Or.inl h1
        · exact Or.inr (List.mem_cons_of_mem _ h1)
      · simp only [alSet, if_neg h0] at h
        rcases List.mem_cons.mp h with h1 | h1
        · exact Or.inr (by rw [h1]; exact List.mem_cons_self _ _)
        · rcases ih h1 with h2 | h2
          · exact Or.inl h2
          · exact Or.inr (List.mem_cons_of_mem _ h2)

theorem alGet_mem {α : Type} {l : List (String × α)} {k : String} {v : α}
    (h : alGet l k = some v) : (k, v) ∈ l := by
  induction l with
  | nil => simp [alGet] at h
  | cons p rest ih =>
      obtain ⟨k0, v0⟩ := p
      by_cases h0 : k0 = k
      · subst h0
        simp only [alGet, if_pos rfl] at h
        have h' : v0 = v := by simpa using h
        subst h'
        exact List.mem_cons_self _ _
      · simp only [alGet, if_neg h0] at h
        exact List.mem_cons_of_mem _ (ih h)

/-! ## `ensureImage` / `ensureDrive` lemmas -/

theorem ensureImage_alGet (imageId : String)
    (images : List (String × ImageResult)) :
    alGet (ensureImage imageId images) imageId
      = some ((alGet images imageId).getD freshImage) := by
  unfold ensureImage
  cases h : alGet images imageId with
  | none => simp [h, alGet_alSet_self]
  | some v => simp [h]

theorem ensureImage_alGet_ne (imageId id' : String)
    (images : List (String × ImageResult)) (h : id' ≠ imageId) :
    alGet (ensureImage imageId images) id' = alGet images id' := by
  unfold ensureImage
  split
  · exact alGet_alSet_ne _ _ _ _ h
  · rfl

theorem mem_ensureImage {imageId : String}
    {images : List (String × ImageResult)} {e : String × ImageResult}
    (h : e ∈ ensureImage imageId images) :
    e = (imageId, freshImage) ∨ e ∈ images := by
  unfold ensureImage at h
  split at h
  · exact mem_alSet h
  · exact Or.inr h

theorem ensureDrive_proj (drive : String) (img : ImageResult) :
    (ensureDrive drive img).rhel_found = img.rhel_found
    ∧ (ensureDrive drive img).rhel_release_files_found
        = img.rhel_release_files_found
    ∧ (ensureDrive drive img).rhel_product_certs_found
        = img.rhel_product_certs_found
    ∧ (ensureDrive drive img).rhel_enabled_repos_found
        = img.rhel_enabled_repos_found
    ∧ (ensureDrive drive img).rhel_signed_packages_found
        = img.rhel_signed_packages_found
    ∧ (ensureDrive drive img).rhel_version = img.rhel_version
    ∧ (ensureDrive drive img).syspurpose = img.syspurpose
    ∧ (ensureDrive drive img).errors = img.errors := by
  unfold ensureDrive
  split <;> exact ⟨rfl, rfl, rfl, rfl, rfl, rfl, rfl, rfl⟩

theorem flagsConsistent_freshImage : flagsConsistent freshImage := rfl

theorem flagsConsistent_ensureDrive {drive : String} {img : ImageResult}
    (h : flagsConsistent img) : flagsConsistent (ensureDrive drive img) := by
  have hp := ensureDrive_proj drive img
  unfold flagsConsistent at h ⊢
  rw [hp.1, hp.2.1, hp.2.2.1, hp.2.2.2.1, hp.2.2.2.2.1, h]

theorem flagsLe_ensureDrive (drive : String) (img : ImageResult) :
    flagsLe img (ensureDrive drive img) = true := by
  have hp := ensureDrive_proj drive img
  unfold flagsLe
  rw [hp.1, hp.2.1, hp.2.2.1, hp.2.2.2.1, hp.2.2.2.2.1]
  exact flagsLe_refl img

/-! ## Characterisation of one `mount_and_inspect` step -/

theorem mount_and_inspect_elim {drive imageId : String} {dinp : DriveInput}
    {r r' : RunResult}
    (h : mount_and_inspect drive imageId dinp r = .ok r') :
    (dinp.driveExists = false ∧
      r' = { r with
             images := alSet (ensureImage imageId r.images) imageId
               { ensureDrive drive
                   ((alGet (ensureImage imageId r.images) imageId).getD freshImage)
                 with
                 errors := (ensureDrive drive
                   ((alGet (ensureImage imageId r.images) imageId).getD
                     freshImage)).errors ++ [nothingFoundMsg drive imageId] }
             errors := r.errors ++ [nothingFoundMsg drive imageId] })
    ∨ (dinp.driveExists = true ∧ ∃ img' errs',
        processPartitions drive imageId dinp.partitions
          (ensureDrive drive
            ((alGet (ensureImage imageId r.images) imageId).getD freshImage))
          r.errors = .ok (img', errs')
        ∧ r' = { r with
                 images := alSet (ensureImage imageId r.images) imageId img'
                 errors := errs' }) := by
  unfold mount_and_inspect at h
  cases hd : dinp.driveExists with
  | false =>
      rw [hd] at h
      simp only [Bool.not_false, if_pos] at h
      exact Or.inl ⟨rfl, (Except.ok.inj h).symm⟩
  | true =>
      rw [hd] at h
      simp only [Bool.not_true, Bool.false_eq_true, if_false] at h
      cases hp : processPartitions drive imageId dinp.partitions
          (ensureDrive drive
            ((alGet (ensureImage imageId r.images) imageId).getD freshImage))
          r.errors with
      | error e => rw [hp] at h; simp at h
      | ok st =>
          rw [hp] at h
          exact Or.inr ⟨rfl, st.1, st.2, rfl, (Except.ok.inj h).symm⟩

theorem mount_and_inspect_flagsConsistent {drive imageId : String}
    {dinp : DriveInput} {r r' : RunResult}
    (hInv : ∀ e ∈ r.images, flagsConsistent e.2)
    (h : mount_and_inspect drive imageId dinp r = .ok r') :
    ∀ e ∈ r'.images, flagsConsistent e.2 := by
  have himg1 : flagsConsistent
      (ensureDrive drive
        ((alGet (ensureImage imageId r.images) imageId).getD freshImage)) := by
    apply flagsConsistent_ensureDrive
    cases hg : alGet r.images imageId with
    | none =>
        rw [ensureImage_alGet, hg]
        exact flagsConsistent_freshImage
    | some v =>
        rw [ensureImage_alGet, hg]
        exact hInv (imageId, v) (alGet_mem hg)
  have hmem : ∀ e ∈ ensureImage imageId r.images, flagsConsistent e.2 := by
    intro e he
    rcases mem_ensureImage he with h1 | h1
    · rw [h1]; exact flagsConsistent_freshImage
    · exact hInv e h1
  rcases mount_and_inspect_elim h with ⟨_, hr⟩ | ⟨_, img', errs', hp, hr⟩
  · subst hr
    intro e he
    rcases mem_alSet he with h1 | h1
    · rw [h1]
      show flagsConsistent { ensureDrive drive _ with errors := _ }
      unfold flagsConsistent at himg1 ⊢
      exact himg1
    · exact hmem e h1
  · subst hr
    intro e he
    rcases mem_alSet he with h1 | h1
    · rw [h1]
      exact processPartitions_flagsConsistent _ _ _ _ _ himg1 hp
    · exact hmem e h1

theorem mount_and_inspect_mono {drive imageId : String}
    {dinp : DriveInput} {r r' : RunResult}
    (h : mount_and_inspect drive imageId dinp r = .ok r')
    (id₀ : String) (img₀ : ImageResult)
    (hget : alGet r.images id₀ = some img₀) :
    ∃ img₁, alGet r'.images id₀ = some img₁ ∧ flagsLe img₀ img₁ = true := by
  by_cases hid : id₀ = imageId
  · subst hid
    have himg0 : (alGet (ensureImage id₀ r.images) id₀).getD freshImage = img₀ := by
      rw [ensureImage_alGet, hget]
      rfl
    rcases mount_and_inspect_elim h with ⟨_, hr⟩ | ⟨_, img', errs', hp, hr⟩
    · subst hr
      refine ⟨_, alGet_alSet_self _ _ _, ?_⟩
      rw [himg0]
      unfold flagsLe ensureDrive
      split <;> simp
    · subst hr
      refine ⟨img', alGet_alSet_self _ _ _, ?_⟩
      rw [himg0] at hp
      exact flagsLe_trans (flagsLe_ensureDrive drive img₀)
        (processPartitions_flagsLe _ _ _ _ _ hp)
  · rcases mount_and_inspect_elim h with ⟨_, hr⟩ | ⟨_, img', errs', hp, hr⟩ <;>
      subst hr <;>
      refine ⟨img₀, ?_, flagsLe_refl img₀⟩ <;>
      rw [show (alSet (ensureImage imageId r.images) imageId _ : List (String × ImageResult)) = _ from rfl] <;>
      rw [alGet_alSet_ne _ _ _ _ hid, ensureImage_alGet_ne _ _ _ hid] <;>
      exact hget

theorem processTargets_nil (r : RunResult) : processTargets [] r = .ok r := rfl

theorem processTargets_cons (t : String × String × DriveInput)
    (targets : List (String × String × DriveInput)) (r : RunResult) :
    processTargets (t :: targets) r
      = match mount_and_inspect t.2.1 t.1 t.2.2 r with
        | .error e => .error e
        | .ok r1 => processTargets targets r1 := by
  unfold processTargets
  rw [List.foldlM_cons]
  cases mount_and_inspect t.2.1 t.1 t.2.2 r with
  | error e => rfl
  | ok r1 => rfl

theorem processTargets_flagsConsistent :
    ∀ (targets : List (String × String × DriveInput)) (r r' : RunResult),
      (∀ e ∈ r.images, flagsConsistent e.2) →
      processTargets targets r = .ok r' →
      ∀ e ∈ r'.images, flagsConsistent e.2 := by
  intro targets
  induction targets with
  | nil =>
      intro r r' hInv h
      rw [processTargets_nil] at h
      rw [← Except.ok.inj h]
      exact hInv
  | cons t rest ih =>
      intro r r' hInv h
      rw [processTargets_cons] at h
      cases hm : mount_and_inspect t.2.1 t.1 t.2.2 r with
      | error e => rw [hm] at h; simp at h
      | ok r1 =>
          rw [hm] at h
          exact ih r1 r' (mount_and_inspect_flagsConsistent hInv hm) h

theorem processTargets_mono :
    ∀ (targets : List (String × String × DriveInput)) (r r' : RunResult),
      processTargets targets r = .ok r' →
      ∀ (id₀ : String) (img₀ : ImageResult),
        alGet r.images id₀ = some img₀ →
        ∃ img₁, alGet r'.images id₀ = some img₁ ∧ flagsLe img₀ img₁ = true := by
  intro targets
  induction targets with
  | nil =>
      intro r r' h id₀ img₀ hget
      rw [processTargets_nil] at h
      rw [← Except.ok.inj h]
      exact ⟨img₀, hget, flagsLe_refl img₀⟩
  | cons t rest ih =>
      intro r r' h id₀ img₀ hget
      rw [processTargets_cons] at h
      cases hm : mount_and_inspect t.2.1 t.1 t.2.2 r with
      | error e => rw [hm] at h; simp at h
      | ok r1 =>
          rw [hm] at h
          obtain ⟨img₁, hget₁, hle₁⟩ := mount_and_inspect_mono hm id₀ img₀ hget
          obtain ⟨img₂, hget₂, hle₂⟩ := ih r1 r' h id₀ img₁ hget₁
          exact ⟨img₂, hget₂, flagsLe_trans hle₁ hle₂⟩

theorem bimp_elim {x y : Bool} (h : (!x || y) = true) (hx : x = true) :
    y = true := by
  cases x <;> cases y <;> simp_all

/-! ## Claim C1: `rhel_found` is the OR of the four heuristics -/

/-- C1: after a completed run, every image's `rhel_found` flag equals
the disjunction of its four per-heuristic flags; and over one
partition sequence, the accumulated `rhel_found` is the OR, across all
successfully inspected (mounted) partitions, of the four heuristic
verdicts of that partition. -/
theorem rhel_found_is_or_of_heuristics :
    (∀ cloud targets r, runModel cloud targets = .ok r →
      ∀ e ∈ r.images,
        e.2.rhel_found
          = (e.2.rhel_release_files_found || e.2.rhel_product_certs_found
              || e.2.rhel_enabled_repos_found || e.2.rhel_signed_packages_found))
    ∧ (∀ drive imageId parts img errs img' errs',
        processPartitions drive imageId parts img errs = .ok (img', errs') →
        img'.rhel_found
          = (img.rhel_found
              || parts.any (fun pp => partitionRhelFound imageId pp.1 pp.2))) := by
  constructor
  · intro cloud targets r h e he
    exact processTargets_flagsConsistent targets
      { cloud := cloud, images := [], errors := [] } r
      (by intro e' he'; simp at he') h e he
  · intro drive imageId parts img errs img' errs' h
    exact processPartitions_rhel_found parts img errs img' errs' h

def c1Input : PartitionInput :=
  { mountError := none
    releaseFiles := []
    pemPaths := ["/mnt/inspect/etc/pki/product/69.pem"]
    repoFiles := []
    rpmDbGlob := []
    rpmOutput := .ok ""
    osRelease := none
    syspurposeFile := none }

def c1Targets : List (String × String × DriveInput) :=
  [("ami-c1", "/dev/sdw", ⟨true, [("/dev/sdw1", c1Input)]⟩)]

def c1Run : RunResult :=
  (runModel "aws" c1Targets).toOption.getD { cloud := "", images := [], errors := [] }

/-- C1 witness: a one-target run where only the certificate heuristic
fires; the theorem gives the OR identity for its image entry. -/
theorem rhel_found_is_or_of_heuristics_witness :
    (c1Run.images.headD ("", freshImage)).2.rhel_found
      = ((c1Run.images.headD ("", freshImage)).2.rhel_release_files_found
          || (c1Run.images.headD ("", freshImage)).2.rhel_product_certs_found
          || (c1Run.images.headD ("", freshImage)).2.rhel_enabled_repos_found
          || (c1Run.images.headD ("", freshImage)).2.rhel_signed_packages_found) :=
  rhel_found_is_or_of_heuristics.1 "aws" c1Targets c1Run (by decide)
    (c1Run.images.headD ("", freshImage)) (by decide)

/-! ## Claim C9: the five flags are monotone across the run -/

/-- C9: processing further targets (from any intermediate run state,
so in particular when the same image id is inspected again via a later
target or drive) only ORs new findings into the five image-level
boolean flags: once any of them is true it stays true. -/
theorem image_flags_monotone :
    ∀ (targets : List (String × String × DriveInput)) (r r' : RunResult),
      processTargets targets r = .ok r' →
      ∀ imageId img, alGet r.images imageId = some img →
      ∃ img', alGet r'.images imageId = some img'
        ∧ (img.rhel_found = true → img'.rhel_found = true)
        ∧ (img.rhel_release_files_found = true →
            img'.rhel_release_files_found = true)
        ∧ (img.rhel_product_certs_found = true →
            img'.rhel_product_certs_found = true)
        ∧ (img.rhel_enabled_repos_found = true →
            img'.rhel_enabled_repos_found = true)
        ∧ (img.rhel_signed_packages_found = true →
            img'.rhel_signed_packages_found = true) := by
  intro targets r r' h imageId img hget
  obtain ⟨img', hget', hle⟩ := processTargets_mono targets r r' h imageId img hget
  unfold flagsLe at hle
  simp only [Bool.and_eq_true] at hle
  exact ⟨img', hget',
    bimp_elim hle.1.1.1.1, bimp_elim hle.1.2, bimp_elim hle.1.1.2,
    bimp_elim hle.2, bimp_elim hle.1.1.1.2⟩

def c9Img : ImageResult :=
  { freshImage with rhel_found := true, rhel_product_certs_found := true }

def c9R : RunResult :=
  { cloud := "aws", images := [("ami-c9", c9Img)], errors := [] }

def c9Targets : List (String × String × DriveInput) :=
  [("ami-c9", "/dev/sdz", ⟨false, []⟩)]

def c9R' : RunResult :=
  (processTargets c9Targets c9R).toOption.getD { cloud := "", images := [], errors := [] }

/-- C9 witness: an image whose flags are already set is inspected again
via a target whose device is missing; the flags survive. -/
theorem image_flags_monotone_witness :
    (alGet c9R'.images "ami-c9").map
        (fun i => (i.rhel_found, i.rhel_product_certs_found))
      = some (true, true) := by
  obtain ⟨img', hget', h1, h2, h3, h4, h5⟩ :=
    image_flags_monotone c9Targets c9R c9R' (by decide) "ami-c9" c9Img (by decide)
  rw [hget']
  show some (img'.rhel_found, img'.rhel_product_certs_found) = some (true, true)
  rw [h1 (by decide), h3 (by decide)]

/-! ## Claim C7: missing device path -/

/-- C7: when the target's device path does not exist and its image id
is fresh, exactly one error message is appended to the run-level error
list, the image entry holds exactly that one error, all five boolean
flags are false, `rhel_version` and `syspurpose` are absent, and no
partition entry exists under the drive (no partitions were
processed). -/
theorem missing_device_records_error {drive imageId : String}
    {dinp : DriveInput} {r r' : RunResult}
    (hfresh : alGet r.images imageId = none)
    (hne : dinp.driveExists = false)
    (h : mount_and_inspect drive imageId dinp r = .ok r') :
    r'.errors = r.errors ++ [nothingFoundMsg drive imageId]
    ∧ alGet r'.images imageId
        = some { rhel_found := false
                 rhel_signed_packages_found := false
                 rhel_product_certs_found := false
                 rhel_release_files_found := false
                 rhel_enabled_repos_found := false
                 rhel_version := none
                 syspurpose := none
                 drives := [(drive, [])]
                 errors := [nothingFoundMsg drive imageId] } := by
  have himg0 : (alGet (ensureImage imageId r.images) imageId).getD freshImage
      = freshImage := by
    rw [ensureImage_alGet, hfresh]
    rfl
  rcases mount_and_inspect_elim h with ⟨_, hr⟩ | ⟨hd, _⟩
  · subst hr
    refine ⟨rfl, ?_⟩
    rw [show (alSet (ensureImage imageId r.images) imageId _ : List (String × ImageResult)) = _ from rfl,
        alGet_alSet_self]
    rw [himg0]
    rfl
  · rw [hd] at hne
    simp at hne

def c7R : RunResult := { cloud := "aws", images := [], errors := [] }

def c7R' : RunResult :=
  (mount_and_inspect "/dev/sdq" "ami-c7" ⟨false, []⟩ c7R).toOption.getD
    { cloud := "", images := [], errors := [] }

/-- C7 witness: the missing-device scenario on a fresh run state. -/
theorem missing_device_records_error_witness :
    c7R'.errors = c7R.errors ++ [nothingFoundMsg "/dev/sdq" "ami-c7"]
    ∧ alGet c7R'.images "ami-c7"
        = some { rhel_found := false
                 rhel_signed_packages_found := false
                 rhel_product_certs_found := false
                 rhel_release_files_found := false
                 rhel_enabled_repos_found := false
                 rhel_version := none
                 syspurpose := none
                 drives := [("/dev/sdq", [])]
                 errors := [nothingFoundMsg "/dev/sdq" "ami-c7"] } :=
  @missing_device_records_error "/dev/sdq" "ami-c7" ⟨false, []⟩ c7R c7R'
    (by decide) (by decide) (by decide)

/-! ## Claim C2: last-write-wins for `rhel_version` and `syspurpose` -/

def c2Input : PartitionInput :=
  { mountError := none
    releaseFiles := []
    pemPaths := ["/mnt/inspect/etc/pki/product/69.pem"]
    repoFiles := []
    rpmDbGlob := []
    rpmOutput := .ok ""
    osRelease := some ["VERSION_ID=\"8.1\""]
    syspurposeFile := none }

def c2Targets : List (String × String × DriveInput) :=
  [("ami-c2", "/dev/sdx", ⟨true, [("/dev/sdx1", c2Input)]⟩)]

def c2Run : RunResult :=
  (runModel "aws" c2Targets).toOption.getD { cloud := "", images := [], errors := [] }

/-- C2 counterexample: the claim states that `rhel_version` is
overwritten whenever a partition both detected RHEL and produced a
non-empty `os_version`.  On a partition whose RHEL detection came from
the product-certificate heuristic only, with a non-empty
`os_version = "8.1"`, the code leaves `rhel_version` unset: the
capture is gated on the release-file heuristic specifically
(cli.py:239), not on the partition's overall RHEL detection. -/
theorem rhel_version_not_set_on_cert_only_detection :
    runModel "aws" c2Targets = .ok c2Run
    ∧ get_os_version c2Input.osRelease = some "8.1"
    ∧ partitionRhelFound "ami-c2" "/dev/sdx1" c2Input = true
    ∧ (alGet c2Run.images "ami-c2").map
        (fun i => (i.rhel_found, i.rhel_version))
      = some (true, none) := by
  refine ⟨by decide, by decide, by decide, by decide⟩

/-- C2 amended: over a partition sequence, the final `rhel_version` is
the `os_version` of the last partition that mounted, whose
*release-file* heuristic fired and whose version was non-empty (the
initial value if none did); the final `syspurpose` is the parsed
document of the last partition that mounted, whose *overall* RHEL
detection succeeded and whose syspurpose contents parsed to a
non-empty (truthy) document.  Both are overwritten, not merged. -/
theorem rhel_version_syspurpose_last_write_wins :
    ∀ (drive imageId : String) (parts : List (String × PartitionInput))
      (img : ImageResult) (errs : List String)
      (img' : ImageResult) (errs' : List String),
      processPartitions drive imageId parts img errs = .ok (img', errs') →
      img'.rhel_version = specLastVersion parts img.rhel_version
      ∧ img'.syspurpose = specLastSyspurpose imageId parts img.syspurpose := by
  intro drive imageId parts img errs img' errs' h
  exact processPartitions_version_syspurpose parts img errs img' errs' h

def c2wRel : PartitionInput :=
  { mountError := none
    releaseFiles :=
      [("/mnt/inspect/etc/redhat-release",
        .ok "Red Hat Enterprise Linux Server release 7.4 (Maipo)")]
    pemPaths := []
    repoFiles := []
    rpmDbGlob := []
    rpmOutput := .ok ""
    osRelease := some ["VERSION_ID=\"7.4\""]
    syspurposeFile := none }

def c2wCentos : PartitionInput :=
  { mountError := none
    releaseFiles :=
      [("/mnt/inspect/etc/centos-release", .ok "CentOS Linux release 7.9")]
    pemPaths := []
    repoFiles := []
    rpmDbGlob := []
    rpmOutput := .ok ""
    osRelease := some ["VERSION_ID=\"7\""]
    syspurposeFile := none }

def c2wParts : List (String × PartitionInput) :=
  [("/dev/sda1", c2wRel), ("/dev/sda2", c2wCentos)]

def c2wRes : ImageResult × List String :=
  (processPartitions "/dev/sda" "ami-w2" c2wParts freshImage []).toOption.getD
    (freshImage, [])

/-- C2 amended witness: a RHEL 7.4 partition followed by a CentOS
partition; the final version is the RHEL partition's `7.4`. -/
theorem rhel_version_syspurpose_last_write_wins_witness :
    c2wRes.1.rhel_version = specLastVersion c2wParts none
    ∧ specLastVersion c2wParts none = some "7.4"
    ∧ c2wRes.1.syspurpose = specLastSyspurpose "ami-w2" c2wParts none :=
  ⟨(rhel_version_syspurpose_last_write_wins "/dev/sda" "ami-w2" c2wParts
      freshImage [] c2wRes.1 c2wRes.2 (by decide)).1,
   by decide,
   (rhel_version_syspurpose_last_write_wins "/dev/sda" "ami-w2" c2wParts
      freshImage [] c2wRes.1 c2wRes.2 (by decide)).2⟩

/-! ## Claim C10: syspurpose stored only when the parsed value is truthy -/

/-- C10: the image-level `syspurpose` field is left untouched by a
partition whenever the storing condition fails — in particular whenever
the parsed JSON value is not truthy — and the contents `"\x7b\x7d"` (an
empty object) and `"null"` both parse successfully to values that are
not truthy, so they are silently not stored even when RHEL was
detected on the partition. -/
theorem syspurpose_stored_only_when_truthy :
    (∀ drive partition imageId inp img errs img' errs',
      check_partition drive partition imageId inp img errs = .ok (img', errs') →
      spSetOf imageId partition inp = false →
      img'.syspurpose = img.syspurpose)
    ∧ parse_syspurpose "\x7b\x7d" = some (Json.obj [])
    ∧ jsonTruthy (Json.obj []) = false
    ∧ parse_syspurpose "null" = some Json.null
    ∧ jsonTruthy Json.null = false := by
  refine ⟨?_, by decide, by decide, by decide, by decide⟩
  intro drive partition imageId inp img errs img' errs' h hsp
  have := (check_partition_version_syspurpose h).2
  rw [this, hsp]
  simp

def c10Input : PartitionInput :=
  { mountError := none
    releaseFiles := []
    pemPaths := ["/mnt/inspect/etc/pki/product/69.pem"]
    repoFiles := []
    rpmDbGlob := []
    rpmOutput := .ok ""
    osRelease := none
    syspurposeFile := some "\x7b\x7d" }

def c10Res : ImageResult × List String :=
  (check_partition "/dev/sdy" "/dev/sdy1" "ami-c10" c10Input freshImage []).toOption.getD
    (freshImage, [])

/-- C10 witness: RHEL is detected via a product certificate and the
syspurpose file holds the empty object; `syspurpose` stays absent. -/
theorem syspurpose_stored_only_when_truthy_witness :
    c10Res.1.syspurpose = freshImage.syspurpose
    ∧ partitionRhelFound "ami-c10" "/dev/sdy1" c10Input = true :=
  ⟨syspurpose_stored_only_when_truthy.1 "/dev/sdy" "/dev/sdy1" "ami-c10"
      c10Input freshImage [] c10Res.1 c10Res.2 (by decide) (by decide),
   by decide⟩

/-! ## Claim C6: syspurpose round trip and size ceiling -/

theorem isJsonWs_quote : isJsonWs '"' = false := by decide

theorem isJsonWs_colon : isJsonWs ':' = false := by decide

theorem isJsonWs_comma : isJsonWs ',' = false := by decide

theorem isJsonWs_lbrace : isJsonWs lbrace = false := by decide

theorem isJsonWs_rbrace : isJsonWs rbrace = false := by decide

theorem skipWs_cons {c : Char} (cs : List Char) (h : isJsonWs c = false) :
    skipWs (c :: cs) = c :: cs := by
  simp [skipWs, h]

theorem skipWs_space (cs : List Char) : skipWs (' ' :: cs) = skipWs cs := by
  show (if isJsonWs ' ' then skipWs cs else ' ' :: cs) = skipWs cs
  rw [if_pos (by decide)]

theorem scanStr_append (l : List Char) (rest : List Char)
    (h : l.all (fun c => c ≠ '"' && c ≠ '\\') = true) :
    scanStr (l ++ '"' :: rest) = some (l, rest) := by
  induction l with
  | nil => simp [scanStr]
  | cons c t ih =>
      simp only [List.all_cons, Bool.and_eq_true, decide_eq_true_eq] at h
      obtain ⟨⟨h1, h2⟩, h3⟩ := h
      simp [scanStr, h1, h2, ih (by simpa using h3)]

theorem parseStringLit_encode (k : String) (h : cleanStr k = true)
    (rest : List Char) :
    parseStringLit ('"' :: (k.data ++ '"' :: rest)) = some (k, rest) := by
  have hs := scanStr_append k.data rest h
  simp [parseStringLit, hs]

theorem parsePair_encode (k v : String) (hk : cleanStr k = true)
    (hv : cleanStr v = true) (rest : List Char) :
    parsePair (encodeField (k, v) ++ rest) = some ((k, v), rest) := by
  unfold parsePair encodeField
  simp only [List.cons_append, List.append_assoc, List.nil_append]
  rw [skipWs_cons _ isJsonWs_quote, parseStringLit_encode k hk]
  simp only []
  rw [skipWs_cons _ isJsonWs_colon]
  simp only [if_pos rfl]
  rw [skipWs_space, skipWs_cons _ isJsonWs_quote, parseStringLit_encode v hv]
  simp

theorem parsePair_space (cs : List Char) : parsePair (' ' :: cs) = parsePair cs := by
  unfold parsePair
  rw [skipWs_space]

theorem parseMembers_space (fuel : Nat) (cs : List Char) :
    parseMembers (fuel + 1) (' ' :: cs) = parseMembers (fuel + 1) cs := by
  unfold parseMembers
  rw [parsePair_space]

theorem parseMembers_encode :
    ∀ (fs : List (String × String)), fs ≠ [] →
    (∀ kv ∈ fs, cleanStr kv.1 = true ∧ cleanStr kv.2 = true) →
    ∀ (rest : List Char) (fuel : Nat), fs.length ≤ fuel →
    parseMembers fuel (encodeFields fs ++ rbrace :: rest) = some (fs, rest) := by
  intro fs
  induction fs with
  | nil => intro h; exact absurd rfl h
  | cons kv fs ih =>
      intro _ hclean rest fuel hfuel
      obtain ⟨kv1, kv2⟩ := kv
      have hk := (hclean (kv1, kv2) (by simp)).1
      have hv := (hclean (kv1, kv2) (by simp)).2
      cases fuel with
      | zero => simp at hfuel
      | succ f =>
          cases fs with
          | nil =>
              show parseMembers (f + 1) (encodeField (kv1, kv2) ++ rbrace :: rest)
                = some ([(kv1, kv2)], rest)
              unfold parseMembers
              rw [parsePair_encode kv1 kv2 hk hv]
              simp only []
              rw [skipWs_cons _ isJsonWs_rbrace]
              simp [show (rbrace = ',') = False from by decide]
          | cons kv' fs' =>
              have hlen : (kv' :: fs').length ≤ f := by
                simp only [List.length_cons] at hfuel ⊢
                omega
              show parseMembers (f + 1)
                  ((encodeField (kv1, kv2) ++ ',' :: ' ' :: encodeFields (kv' :: fs'))
                    ++ rbrace :: rest)
                = some ((kv1, kv2) :: kv' :: fs', rest)
              rw [List.append_assoc, List.cons_append, List.cons_append]
              unfold parseMembers
              rw [parsePair_encode kv1 kv2 hk hv]
              simp only []
              rw [skipWs_cons _ isJsonWs_comma]
              simp only [if_pos rfl]
              cases f with
              | zero => simp at hlen
              | succ f' =>
                  rw [parseMembers_space,
                      ih (by simp) (fun q hq => hclean q (by simp [hq])) rest
                        (f' + 1) hlen]
                  rfl

theorem encodeField_length_pos (kv : String × String) :
    1 ≤ (encodeField kv).length := by
  simp only [encodeField, List.length_cons, List.length_append]
  omega

theorem encodeFields_length_ge :
    ∀ fs : List (String × String), fs.length ≤ (encodeFields fs).length := by
  intro fs
  induction fs with
  | nil => simp [encodeFields]
  | cons kv fs ih =>
      cases fs with
      | nil =>
          have := encodeField_length_pos kv
          simp only [encodeFields, List.length_cons, List.length_nil]
          omega
      | cons kv' fs' =>
          have h1 := encodeField_length_pos kv
          simp only [encodeFields, List.length_cons, List.length_append] at ih ⊢
          omega

theorem encodeFields_head (kv : String × String) (fs : List (String × String)) :
    ∃ tail, encodeFields (kv :: fs) = '"' :: tail := by
  cases fs with
  | nil => exact ⟨_, rfl⟩
  | cons kv' fs' => exact ⟨_, rfl⟩

theorem pyJsonLoads_encodeJson (j : Json) (h : cleanJson j = true) :
    pyJsonLoads (encodeJson j) = some j := by
  cases j with
  | null => decide
  | obj fs =>
      cases fs with
      | nil => decide
      | cons kv fs' =>
          have hclean : ∀ q ∈ kv :: fs', cleanStr q.1 = true ∧ cleanStr q.2 = true := by
            intro q hq
            have hq2 := List.all_eq_true.mp h q hq
            simpa using hq2
          obtain ⟨tail, htail⟩ := encodeFields_head kv fs'
          have hfuel : (kv :: fs').length ≤ (tail ++ [rbrace]).length + 2 := by
            have hge := encodeFields_length_ge (kv :: fs')
            rw [htail] at hge
            simp only [List.length_cons, List.length_append] at hge ⊢
            omega
          show parseJsonTop ((lbrace :: encodeFields (kv :: fs')) ++ [rbrace])
            = some (Json.obj (kv :: fs'))
          unfold parseJsonTop
          rw [List.cons_append, skipWs_cons _ isJsonWs_lbrace]
          rw [show parseTopAfterWs
                (lbrace :: (encodeFields (kv :: fs') ++ [rbrace]))
              = parseObjBody (skipWs (encodeFields (kv :: fs') ++ [rbrace]))
              from rfl]
          rw [htail, List.cons_append, skipWs_cons _ isJsonWs_quote]
          rw [show parseObjBody ('"' :: (tail ++ [rbrace]))
              = (match parseMembers ((tail ++ [rbrace]).length + 2)
                    ('"' :: (tail ++ [rbrace])) with
                 | some (fields, rest') =>
                     if skipWs rest' = [] then some (.obj fields) else none
                 | none => none)
              from rfl]
          rw [show ('"' :: (tail ++ [rbrace]) : List Char)
                = encodeFields (kv :: fs') ++ rbrace :: [] from by
              rw [htail, List.cons_append]]
          rw [parseMembers_encode (kv :: fs') (by simp) hclean [] _ hfuel]
          rfl

theorem encodeJson_data_ne_nil (j : Json) :
    (encodeJson j).data.isEmpty = false := by
  cases j with
  | null => decide
  | obj fs => rfl

theorem pyStrip_encodeJson_ne (j : Json) :
    (pyStrip (encodeJson j)).data.isEmpty = false := by
  cases j with
  | null => decide
  | obj fs =>
      show (stripEnds isPyWs ((lbrace :: encodeFields fs) ++ [rbrace])).isEmpty
        = false
      unfold stripEnds
      rw [List.cons_append, List.dropWhile_cons, if_neg (by decide)]
      cases hdw : (lbrace :: (encodeFields fs ++ [rbrace])).reverse.dropWhile isPyWs with
      | nil =>
          exfalso
          have hall := List.dropWhile_eq_nil_iff.mp hdw
          have hmem : lbrace ∈ (lbrace :: (encodeFields fs ++ [rbrace])).reverse := by
            rw [List.mem_reverse]
            exact List.mem_cons_self _ _
          exact absurd (hall lbrace hmem) (by decide)
      | cons c t => simp

/-- C6: a syspurpose file whose contents are the serialised form of a
document (with escape-free strings) and fit under the size ceiling is
read and parsed back to the identical document; a file over the
ceiling yields no syspurpose and the read of its contents is never
attempted. -/
theorem syspurpose_roundtrip_and_size_gate :
    (∀ j : Json, cleanJson j = true →
      (encodeJson j).utf8ByteSize ≤ SYSPURPOSE_FILESIZE_LIMIT →
      (get_syspurpose (some (encodeJson j))).readAttempted = true
      ∧ (get_syspurpose (some (encodeJson j))).value = some (encodeJson j)
      ∧ parse_syspurpose (encodeJson j) = some j)
    ∧ (∀ s : String, s.utf8ByteSize > SYSPURPOSE_FILESIZE_LIMIT →
      get_syspurpose (some s) = { value := none, readAttempted := false }) := by
  constructor
  · intro j hc hsize
    have hne := encodeJson_data_ne_nil j
    have hget : get_syspurpose (some (encodeJson j))
        = { value := some (encodeJson j), readAttempted := true } := by
      simp only [get_syspurpose]
      rw [if_neg (by omega :
            ¬ (encodeJson j).utf8ByteSize > SYSPURPOSE_FILESIZE_LIMIT)]
      simp [hne]
    refine ⟨by rw [hget], by rw [hget], ?_⟩
    unfold parse_syspurpose
    simp [hne, pyStrip_encodeJson_ne j, pyJsonLoads_encodeJson j hc]
  · intro s hs
    simp only [get_syspurpose]
    rw [if_pos hs]

def c6Doc : Json :=
  Json.obj [("role", "Red Hat Enterprise Linux Server"), ("usage", "Production")]

def c6Big : String := String.mk (List.replicate 1025 'a')

set_option maxRecDepth 100000 in
/-- C6 witness: a two-field syspurpose document round-trips, and a
1025-byte file is skipped without a read attempt. -/
theorem syspurpose_roundtrip_and_size_gate_witness :
    parse_syspurpose (encodeJson c6Doc) = some c6Doc
    ∧ (get_syspurpose (some (encodeJson c6Doc))).readAttempted = true
    ∧ get_syspurpose (some c6Big) = { value := none, readAttempted := false } :=
  ⟨(syspurpose_roundtrip_and_size_gate.1 c6Doc (by decide) (by decide)).2.2,
   (syspurpose_roundtrip_and_size_gate.1 c6Doc (by decide) (by decide)).1,
   syspurpose_roundtrip_and_size_gate.2 c6Big (by decide)⟩

/-- C5 witness: the empty-database short-circuit at a concrete
partition and image, with a pipeline result that would otherwise have
counted three packages. -/
theorem check_for_signed_packages_empty_db_witness :
    check_for_signed_packages "/dev/sdc1" "ami-c5" [] (.ok "3")
      = .ok { rhel_found := false
              rhel_signed_package_count := 0
              error := none
              status := some (rpmDbEmptyMsg "/dev/sdc1" "ami-c5")
              subprocessInvoked := false }
    ∧ rpmDbEmptyMsg "/dev/sdc1" "ami-c5" ≠ "" :=
  check_for_signed_packages_empty_db "/dev/sdc1" "ami-c5" (.ok "3")
